import Mathlib

/-!
# PilotCRM — verification of the store mutations and post-call rule engine

Shallow embedding of the PilotCRM server code:

* the server-side store (`src/lib/store.ts`): query helpers, pipeline
  statistics, and the mutation helpers (`updateAccountStage`,
  `updateAccountLikelihood`, `addNoteToAccount`, `addCallRecord`,
  `createAccount`, `deleteAccount`, `flagAccountRisk`);
* the legacy in-module helpers of `src/lib/data.ts` (namespace `DataLib`),
  of which only `getPipelineStats` differs in a way the claims touch;
* the `addCall` action of `POST /api/crm` (`src/app/api/crm/route.ts`),
  i.e. the post-call rule engine (likelihood blend, stage auto-adjustment,
  note append, tag update, follow-up scheduling, final risk check).

JavaScript numbers are modelled as `ℚ` (the account `likelihood` field,
which the code only ever writes as a clamped integer, as `ℤ`);
`Math.round` is `⌊q + 1/2⌋`; `Date`-derived strings (timestamps, computed
follow-up dates) are passed in as opaque `String` parameters; the
monotonically increasing id counter is part of the store state and the
disk `persist()` call is a no-op on that state.
-/

namespace PilotCRM

/-- JavaScript `Math.round`: round half toward positive infinity. -/
def jsRound (q : ℚ) : ℤ := ⌊q + 1/2⌋

/-- JavaScript `Math.max` on two numbers (integer case). -/
def jsMax (x y : ℤ) : ℤ := if x ≤ y then y else x

/-- JavaScript `Math.min` on two numbers (integer case). -/
def jsMin (x y : ℤ) : ℤ := if x ≤ y then x else y

/-- JavaScript `String.prototype.toLowerCase` (ASCII-adequate model). -/
def jsToLower (s : String) : String := String.mk (s.toList.map Char.toLower)

/-- Is `pat` a prefix of the second list? -/
def listPrefixOf : List Char → List Char → Bool
| [], _ => true
| _ :: _, [] => false
| a :: as, b :: bs => a == b && listPrefixOf as bs

/-- Is `pat` a contiguous sublist of the second list? -/
def listInfixOf (pat : List Char) : List Char → Bool
| [] => pat.isEmpty
| b :: rest => listPrefixOf pat (b :: rest) || listInfixOf pat rest

/-- JavaScript `String.prototype.includes`: substring containment. -/
def strIncludes (s pat : String) : Bool := listInfixOf pat.toList s.toList

/-- `Plan` enum from `src/lib/data.ts`. -/
inductive Plan
| free
| team
| enterprise
deriving DecidableEq, Repr

/-- `Stage` enum from `src/lib/data.ts`. -/
inductive Stage
| lead
| discovery
| proposal
| negotiation
| closed_won
| closed_lost
deriving DecidableEq, Repr

/-- `Sentiment` record from `src/lib/data.ts`. -/
structure Sentiment where
  score : ℚ
  satisfaction : ℚ
  summary : String
  tags : List String
deriving DecidableEq, Repr

/-- `Account` record from `src/lib/data.ts`. -/
structure Account where
  id : String
  company : String
  contactName : String
  contactEmail : String
  contactRole : String
  plan : Plan
  stage : Stage
  dealValue : ℚ
  likelihood : ℤ
  industry : String
  notes : List String
  lastContactDate : String
  nextFollowUp : Option String
  tags : List String
deriving DecidableEq, Repr

/-- `CallRecord` record from `src/lib/data.ts`. -/
structure CallRecord where
  id : String
  accountId : String
  date : String
  duration : ℚ
  transcript : String
  sentiment : Option Sentiment
  outcome : String
deriving DecidableEq, Repr

/-- `ActivityType` enum from `src/lib/data.ts`. -/
inductive ActivityType
| call
| email
| note
| stage_change
| meeting
deriving DecidableEq, Repr

/-- `Activity` record from `src/lib/data.ts`. -/
structure Activity where
  id : String
  accountId : String
  type : ActivityType
  message : String
  timestamp : String
deriving DecidableEq, Repr

/-- `StoreData` from `src/lib/store.ts`, extended with the id counter
(`let _counter = Date.now()` in the source; here relative to the
store's creation). -/
structure StoreData where
  accounts : List Account
  callRecords : List CallRecord
  activities : List Activity
  counter : ℕ
deriving DecidableEq, Repr

/-- `uid()` from `src/lib/store.ts` (the value after pre-increment). -/
def uid (n : ℕ) : String := "s-" ++ toString n

/-- Replace the first element satisfying `p` by its image under `f`
(model of mutating the element found by `Array.prototype.find`). -/
def updateFirst {α : Type} (p : α → Bool) (f : α → α) : List α → List α
| [] => []
| x :: xs => if p x then f x :: xs else x :: updateFirst p f xs

/-- Remove the first element satisfying `p`
(model of `splice(indexOf(x), 1)`). -/
def removeFirst {α : Type} (p : α → Bool) : List α → List α
| [] => []
| x :: xs => if p x then xs else x :: removeFirst p xs

/-- `getAccount` from `src/lib/store.ts`. -/
def getAccount (s : StoreData) (id : String) : Option Account :=
  s.accounts.find? (fun a => a.id == id)

/-- In-place mutation of the account found by id (shared shape of every
store mutation that writes one account). -/
def modifyAccount (s : StoreData) (id : String) (f : Account → Account) : StoreData :=
  { s with accounts := updateFirst (fun a => a.id == id) f s.accounts }

/-- `store.activities.push({ id: uid(), ... })` followed by `persist()`. -/
def pushActivity (s : StoreData) (accountId : String) (t : ActivityType)
    (message timestamp : String) : StoreData :=
  { s with
    counter := s.counter + 1
    activities := s.activities ++
      [{ id := uid (s.counter + 1), accountId := accountId, type := t,
         message := message, timestamp := timestamp }] }

/-- Stage display labels (`fmtStage` in `src/lib/store.ts`). -/
def fmtStage : Stage → String
| .lead => "Lead"
| .discovery => "Discovery"
| .proposal => "Proposal"
| .negotiation => "Negotiation"
| .closed_won => "Closed Won"
| .closed_lost => "Closed Lost"

/-- `updateAccountStage` from `src/lib/store.ts`.  The `VALID_STAGES`
membership check always passes here because `stage : Stage` is already
one of the six enum values.  `now` stands for `new Date().toISOString()`. -/
def updateAccountStage (s : StoreData) (id : String) (stage : Stage)
    (now : String) : StoreData :=
  match getAccount s id with
  | none => s
  | some account =>
    if account.stage = stage then s
    else
      pushActivity (modifyAccount s id (fun a => { a with stage := stage }))
        id .stage_change
        ("Stage changed from " ++ fmtStage account.stage ++ " → " ++ fmtStage stage)
        now

/-- `updateAccountLikelihood` from `src/lib/store.ts`:
`Math.max(0, Math.min(100, likelihood))`. -/
def updateAccountLikelihood (s : StoreData) (id : String) (likelihood : ℤ) :
    StoreData :=
  match getAccount s id with
  | none => s
  | some _ =>
    modifyAccount s id (fun a => { a with likelihood := jsMax 0 (jsMin 100 likelihood) })

/-- `addNoteToAccount` from `src/lib/store.ts`. -/
def addNoteToAccount (s : StoreData) (id : String) (note : String)
    (now : String) : StoreData :=
  match getAccount s id with
  | none => s
  | some _ =>
    pushActivity (modifyAccount s id (fun a => { a with notes := a.notes ++ [note] }))
      id .note note now

/-- `Omit<CallRecord, "id">` as passed to `addCallRecord`. -/
structure NewCallRecord where
  accountId : String
  date : String
  duration : ℚ
  transcript : String
  sentiment : Option Sentiment
  outcome : String
deriving DecidableEq, Repr

/-- `addCallRecord` from `src/lib/store.ts`.  The record is pushed
unconditionally; only `lastContactDate` maintenance is guarded by the
account lookup. -/
def addCallRecord (s : StoreData) (accountId : String) (record : NewCallRecord) :
    StoreData × CallRecord :=
  let newRecord : CallRecord :=
    { id := uid (s.counter + 1), accountId := record.accountId,
      date := record.date, duration := record.duration,
      transcript := record.transcript, sentiment := record.sentiment,
      outcome := record.outcome }
  let s1 := { s with counter := s.counter + 1,
                     callRecords := s.callRecords ++ [newRecord] }
  let s2 := modifyAccount s1 accountId (fun a => { a with lastContactDate := record.date })
  let s3 := pushActivity s2 accountId .call
    ("Call recorded — " ++ record.outcome ++ " (" ++
      toString (jsRound (record.duration / 60)) ++ " min)")
    record.date
  (s3, newRecord)

/-- The lead fields accepted by `createAccount`. -/
structure NewAccountData where
  company : String
  contactName : String
  contactEmail : String
  contactRole : String
  industry : String
  dealValue : ℚ
  notes : List String
deriving DecidableEq, Repr

/-- `createAccount` from `src/lib/store.ts`.  `now` stands for
`new Date().toISOString()` and `followUp` for the computed
`now + 3 days` date string. -/
def createAccount (s : StoreData) (data : NewAccountData)
    (now followUp : String) : StoreData × Account :=
  let newAccount : Account :=
    { id := uid (s.counter + 1), company := data.company,
      contactName := data.contactName, contactEmail := data.contactEmail,
      contactRole := data.contactRole, plan := .free, stage := .lead,
      dealValue := data.dealValue, likelihood := 25,
      industry := data.industry, notes := data.notes,
      lastContactDate := now, nextFollowUp := some followUp,
      tags := ["inbound"] }
  let s1 := { s with counter := s.counter + 1,
                     accounts := s.accounts ++ [newAccount] }
  let s2 := pushActivity s1 newAccount.id .note
    ("New inbound lead: " ++ data.company ++ " — " ++ data.contactName ++
      " (" ++ data.contactRole ++ ")")
    now
  (s2, newAccount)

/-- `deleteAccount` from `src/lib/store.ts`: splice out the account at
`findIndex`; the second component is the returned boolean. -/
def deleteAccount (s : StoreData) (id : String) : StoreData × Bool :=
  match getAccount s id with
  | none => (s, false)
  | some _ => ({ s with accounts := removeFirst (fun a => a.id == id) s.accounts }, true)

/-- `flagAccountRisk` from `src/lib/store.ts`: add the `at-risk` tag if
absent, then append an explanatory note. -/
def flagAccountRisk (s : StoreData) (id : String) (reason : String)
    (now : String) : StoreData :=
  match getAccount s id with
  | none => s
  | some account =>
    addNoteToAccount
      (if account.tags.contains "at-risk" then s
       else modifyAccount s id (fun a => { a with tags := a.tags ++ ["at-risk"] }))
      id ("⚠️ AT-RISK: " ++ reason) now

/-- `PipelineStats` record from `src/lib/data.ts` (numeric fields as `ℚ`,
per-stage breakdowns as functions). -/
structure PipelineStats where
  totalPipelineValue : ℚ
  weightedPipelineValue : ℚ
  averageDealSize : ℚ
  averageLikelihood : ℚ
  totalAccounts : ℕ
  activeDeals : ℕ
  countByStage : Stage → ℕ
  valueByStage : Stage → ℚ

/-- `getPipelineStats` from `src/lib/store.ts` (the implementation the
API route imports): `active` excludes only `closed_lost`, and
`averageDealSize` is the rounded mean over those active accounts. -/
def getPipelineStats (s : StoreData) : PipelineStats :=
  let active := s.accounts.filter (fun a => a.stage != Stage.closed_lost)
  let totalValue : ℚ := (active.map (fun a => a.dealValue)).sum
  { totalPipelineValue := totalValue
    weightedPipelineValue :=
      (active.map (fun a => a.dealValue * (a.likelihood : ℚ) / 100)).sum
    averageDealSize :=
      if active.length ≠ 0 then (jsRound (totalValue / active.length) : ℚ) else 0
    averageLikelihood :=
      if active.length ≠ 0 then
        (jsRound ((active.map (fun a => (a.likelihood : ℚ))).sum / active.length) : ℚ)
      else 0
    totalAccounts := s.accounts.length
    activeDeals := (active.filter (fun a => a.stage != Stage.closed_won)).length
    countByStage := fun st => (s.accounts.filter (fun a => a.stage == st)).length
    valueByStage := fun st =>
      ((s.accounts.filter (fun a => a.stage == st)).map (fun a => a.dealValue)).sum }

namespace DataLib

/-- `getPipelineStats` from `src/lib/data.ts` (the legacy in-module
helper, a pure function of the account collection): `active` excludes
both `closed_won` and `closed_lost`, `averageDealSize` is the unrounded
mean over ALL accounts, `averageLikelihood` the unrounded mean over the
active accounts. -/
def getPipelineStats (accounts : List Account) : PipelineStats :=
  let active := accounts.filter
    (fun a => a.stage != Stage.closed_won && a.stage != Stage.closed_lost)
  let totalPipelineValue : ℚ := (active.map (fun a => a.dealValue)).sum
  { totalPipelineValue := totalPipelineValue
    weightedPipelineValue :=
      (active.map (fun a => a.dealValue * ((a.likelihood : ℚ) / 100))).sum
    averageDealSize :=
      if accounts.length ≠ 0 then
        ((accounts.map (fun a => a.dealValue)).sum : ℚ) / accounts.length
      else 0
    averageLikelihood :=
      if active.length ≠ 0 then
        ((active.map (fun a => (a.likelihood : ℚ))).sum : ℚ) / active.length
      else 0
    totalAccounts := accounts.length
    activeDeals := active.length
    countByStage := fun st => (accounts.filter (fun a => a.stage == st)).length
    valueByStage := fun st =>
      ((accounts.filter (fun a => a.stage == st)).map (fun a => a.dealValue)).sum }

end DataLib

/-! ## The `addCall` action of `POST /api/crm` (post-call rule engine) -/

/-- The structured call-analysis object (`body.analysis`): nullable
fields model both absent and non-numeric JSON values, which the route
treats alike (`typeof x === "number"` guards every numeric use). -/
structure Analysis where
  overallSentiment : Option ℚ
  likelihoodToClose : Option ℚ
  summary : Option String
  nextSteps : Option (List String)
  painPoints : Option (List String)
deriving DecidableEq, Repr

/-- The request body of the `addCall` action. -/
structure AddCallBody where
  accountId : String
  date : Option String
  duration : Option ℚ
  transcript : Option String
  sentiment : Option Sentiment
  outcome : Option String
  analysis : Option Analysis
deriving DecidableEq, Repr

/-- `analysis?.overallSentiment ?? body.sentiment?.score ?? null`. -/
def sentimentScoreOf (body : AddCallBody) : Option ℚ :=
  (body.analysis.bind (fun an => an.overallSentiment)) <|>
    (body.sentiment.map (fun se => se.score))

/-- `analysis?.likelihoodToClose ?? null`. -/
def likelihoodFromCallOf (body : AddCallBody) : Option ℚ :=
  body.analysis.bind (fun an => an.likelihoodToClose)

/-- `stageOrder.indexOf(acct.stage)` for
`stageOrder = [lead, discovery, proposal, negotiation]` (`-1` if absent). -/
def stageIdx : Stage → ℤ
| .lead => 0
| .discovery => 1
| .proposal => 2
| .negotiation => 3
| _ => -1

/-- `stageOrder[i]` for an in-range index. -/
def stageAt : ℤ → Option Stage
| 0 => some .lead
| 1 => some .discovery
| 2 => some .proposal
| 3 => some .negotiation
| _ => none

/-- Step 4 of the rule engine: the `tagsToAdd` list, in push order —
sentiment family, then `high-priority`, then the three pain-point
keyword families. -/
def callTagsToAdd (sentimentScore likelihoodFromCall : Option ℚ)
    (painPoints : Option (List String)) : List String :=
  let t1 : List String :=
    match sentimentScore with
    | some sc => if sc ≥ 8 then ["engaged"] else if sc ≤ 3 then ["at-risk"] else []
    | none => []
  let t2 : List String :=
    match likelihoodFromCall with
    | some l => if l ≥ 75 then ["high-priority"] else []
    | none => []
  let t3 : List String :=
    match painPoints with
    | some ps =>
      if ps.length > 0 then
        let painText := jsToLower (" ".intercalate ps)
        (if strIncludes painText "budget" || strIncludes painText "price" ||
            strIncludes painText "cost" then ["budget-concern"] else []) ++
        (if strIncludes painText "compliance" || strIncludes painText "security" ||
            strIncludes painText "legal" then ["compliance-blocker"] else []) ++
        (if strIncludes painText "timeline" || strIncludes painText "deadline" ||
            strIncludes painText "urgent" then ["urgent-timeline"] else [])
      else []
    | none => []
  t1 ++ t2 ++ t3

/-- Step 4 of the rule engine: the `tagsToRemove` list. -/
def callTagsToRemove (sentimentScore : Option ℚ) : List String :=
  match sentimentScore with
  | some sc => if sc ≥ 8 then ["at-risk"] else if sc ≤ 3 then ["engaged"] else []
  | none => []

/-- `if (!acct.tags.includes(tag)) acct.tags.push(tag)`. -/
def addTag (tags : List String) (tag : String) : List String :=
  if tags.contains tag then tags else tags ++ [tag]

/-- `const idx = acct.tags.indexOf(tag); if (idx >= 0) acct.tags.splice(idx, 1)`. -/
def removeTag (tags : List String) (tag : String) : List String :=
  removeFirst (fun t => t == tag) tags

/-- Apply the step-4 tag changes: all additions, then all removals. -/
def applyTagChanges (tags : List String) (toAdd toRemove : List String) :
    List String :=
  toRemove.foldl removeTag (toAdd.foldl addTag tags)

/-- Step 1 of the rule engine (likelihood blend, 70% call / 30% old).
`acct` is the account as read just after the call was recorded. -/
def addCallStep1 (body : AddCallBody) (acct : Account) (s : StoreData) :
    StoreData :=
  match likelihoodFromCallOf body with
  | some l =>
    updateAccountLikelihood s acct.id
      (jsRound ((acct.likelihood : ℚ) * (3 / 10) + l * (7 / 10)))
  | none => s

/-- Step 2, regression: sentiment ≤ 3 at index > 0 moves back one stage. -/
def addCallStep2a (sc : ℚ) (acct : Account) (now : String) (s : StoreData) :
    StoreData :=
  if sc ≤ 3 ∧ stageIdx acct.stage > 0 then
    match stageAt (stageIdx acct.stage - 1) with
    | some st => updateAccountStage s acct.id st now
    | none => s
  else s

/-- Step 2, risk flag: any sentiment ≤ 3 flags the account at risk. -/
def addCallStep2b (sc : ℚ) (body : AddCallBody) (acct : Account) (now : String)
    (s : StoreData) : StoreData :=
  if sc ≤ 3 then
    flagAccountRisk s acct.id
      ("Negative call — sentiment " ++ toString sc ++ "/10: " ++
        body.outcome.getD "poor engagement") now
  else s

/-- Step 2, advancement: sentiment ≥ 8 below the last index advances one stage. -/
def addCallStep2c (sc : ℚ) (acct : Account) (now : String) (s : StoreData) :
    StoreData :=
  if sc ≥ 8 ∧ stageIdx acct.stage < 3 then
    match stageAt (stageIdx acct.stage + 1) with
    | some st => updateAccountStage s acct.id st now
    | none => s
  else s

/-- Step 2 of the rule engine: stage auto-adjustment from sentiment. -/
def addCallStep2 (body : AddCallBody) (acct : Account) (now : String)
    (s : StoreData) : StoreData :=
  match sentimentScoreOf body with
  | some sc =>
    if stageIdx acct.stage ≥ 0 then
      addCallStep2c sc acct now
        (addCallStep2b sc body acct now (addCallStep2a sc acct now s))
    else s
  | none => s

/-- The note text built in step 3: summary, plus up to the first three
next steps joined by "; ", the lines joined by " | ". -/
def callSummaryNote (body : AddCallBody) (summ : String) : String :=
  " | ".intercalate
    (match body.analysis.bind (fun an => an.nextSteps) with
     | some steps =>
       if steps.length > 0 then
         ["📞 Call summary: " ++ summ,
          "Next steps: " ++ "; ".intercalate (steps.take 3)]
       else ["📞 Call summary: " ++ summ]
     | none => ["📞 Call summary: " ++ summ])

/-- Step 3 of the rule engine: append the call summary as a note
(`analysis?.summary ?? body.outcome`, skipped when falsy). -/
def addCallStep3 (body : AddCallBody) (acct : Account) (now : String)
    (s : StoreData) : StoreData :=
  match (body.analysis.bind (fun an => an.summary)) <|> body.outcome with
  | some summ =>
    if summ ≠ "" then addNoteToAccount s acct.id (callSummaryNote body summ) now
    else s
  | none => s

/-- The whole step-4 tag transformation of one tag list. -/
def callTagChanges (body : AddCallBody) (tags : List String) : List String :=
  applyTagChanges tags
    (callTagsToAdd (sentimentScoreOf body) (likelihoodFromCallOf body)
      (body.analysis.bind (fun an => an.painPoints)))
    (callTagsToRemove (sentimentScoreOf body))

/-- Step 4 of the rule engine: apply the computed tag changes to the
account's tag list. -/
def addCallStep4 (body : AddCallBody) (acct : Account) (s : StoreData) :
    StoreData :=
  modifyAccount s acct.id (fun a => { a with tags := callTagChanges body a.tags })

/-- The follow-up date chosen in step 5 (2 days out when sentiment ≥ 7,
else 5 days out). -/
def callFollowUpDate (body : AddCallBody) (fu2 fu5 : String) : String :=
  match sentimentScoreOf body with
  | some sc => if sc ≥ 7 then fu2 else fu5
  | none => fu5

/-- Step 5 of the rule engine: when next steps exist, schedule the
follow-up in 2 days (sentiment ≥ 7) or 5 days. -/
def addCallStep5 (body : AddCallBody) (acct : Account) (fu2 fu5 : String)
    (s : StoreData) : StoreData :=
  match body.analysis.bind (fun an => an.nextSteps) with
  | some steps =>
    if steps.length > 0 then
      modifyAccount s acct.id
        (fun a => { a with nextFollowUp := some (callFollowUpDate body fu2 fu5) })
    else s
  | none => s

/-- Step 6 of the rule engine: re-read the account; if its likelihood is
below 30 and the `at-risk` tag is absent, flag it at risk. -/
def addCallStep6 (body : AddCallBody) (acct : Account) (now : String)
    (s : StoreData) : StoreData :=
  match getAccount s body.accountId with
  | some refreshed =>
    if refreshed.likelihood < 30 ∧ ¬ (refreshed.tags.contains "at-risk" = true) then
      flagAccountRisk s acct.id
        ("Likelihood dropped to " ++ toString refreshed.likelihood ++
          "% after call") now
    else s
  | none => s

/-- The rule-engine tail of the `addCall` action: when the account exists
and is not in a terminal stage, run the six steps in order. -/
def runRuleEngine (body : AddCallBody) (now fu2 fu5 : String) (s1 : StoreData) :
    StoreData :=
  match getAccount s1 body.accountId with
  | none => s1
  | some acct =>
    if acct.stage = .closed_won ∨ acct.stage = .closed_lost then s1
    else
      addCallStep6 body acct now
        (addCallStep5 body acct fu2 fu5
          (addCallStep4 body acct
            (addCallStep3 body acct now
              (addCallStep2 body acct now
                (addCallStep1 body acct s1)))))

/-- The request record built by the `addCall` action (defaults applied). -/
def addCallNewRecord (body : AddCallBody) (now : String) : NewCallRecord :=
  { accountId := body.accountId
    date := body.date.getD now
    duration := body.duration.getD 0
    transcript := body.transcript.getD ""
    sentiment := body.sentiment
    outcome := body.outcome.getD "Call completed" }

/-- The `addCall` action of `POST /api/crm` (`src/app/api/crm/route.ts`):
record the call, then run the post-call rule engine.  `now` stands for
the request time, `fu2`/`fu5` for the computed `now + 2 days` /
`now + 5 days` follow-up date strings. -/
def addCall (s : StoreData) (body : AddCallBody) (now fu2 fu5 : String) :
    StoreData × CallRecord :=
  let pair := addCallRecord s body.accountId (addCallNewRecord body now)
  (runRuleEngine body now fu2 fu5 pair.1, pair.2)

/-! ## Account-level view of the store operations

Every store mutation touches at most the single account found by id; the
lemmas below characterise `getAccount` after each operation as an
`Option.map` of a pure account transformation, which lets the rule
engine be reasoned about one account at a time. -/

/-- Account-level `updateAccountStage` (including its same-stage guard). -/
def setStageAcct (st : Stage) (a : Account) : Account :=
  if a.stage = st then a else { a with stage := st }

/-- Account-level `addNoteToAccount`. -/
def addNoteAcct (note : String) (a : Account) : Account :=
  { a with notes := a.notes ++ [note] }

/-- Account-level `flagAccountRisk`. -/
def flagRiskAcct (reason : String) (a : Account) : Account :=
  addNoteAcct ("⚠️ AT-RISK: " ++ reason)
    (if a.tags.contains "at-risk" then a
     else { a with tags := a.tags ++ ["at-risk"] })

theorem find?_updateFirst {α : Type} (p : α → Bool) (f : α → α)
    (hf : ∀ a, p (f a) = p a) (l : List α) :
    (updateFirst p f l).find? p = (l.find? p).map f := by
  induction l with
  | nil => rfl
  | cons x xs ih =>
    by_cases hx : p x = true
    · simp [updateFirst, hx, List.find?_cons, hf]
    · simp only [Bool.not_eq_true] at hx
      simp [updateFirst, hx, List.find?_cons, ih]

theorem find?_updateFirst_proj {α β : Type} (p q : α → Bool) (f : α → α)
    (g : α → β) (hq : ∀ a, q (f a) = q a) (hg : ∀ a, g (f a) = g a)
    (l : List α) :
    ((updateFirst p f l).find? q).map g = (l.find? q).map g := by
  induction l with
  | nil => rfl
  | cons x xs ih =>
    by_cases hp : p x = true
    · by_cases hx : q x = true
      · simp [updateFirst, hp, List.find?_cons, hq, hx, hg]
      · simp only [Bool.not_eq_true] at hx
        simp [updateFirst, hp, List.find?_cons, hq, hx]
    · simp only [Bool.not_eq_true] at hp
      by_cases hx : q x = true
      · simp [updateFirst, hp, List.find?_cons, hx]
      · simp only [Bool.not_eq_true] at hx
        simp [updateFirst, hp, List.find?_cons, hx, ih]

theorem getAccount_eq_some_id {s : StoreData} {id : String} {a : Account}
    (h : getAccount s id = some a) : a.id = id := by
  have := List.find?_some h
  simpa using this

theorem getAccount_modifyAccount (s : StoreData) (id : String)
    (f : Account → Account) (hid : ∀ a, (f a).id = a.id) :
    getAccount (modifyAccount s id f) id = (getAccount s id).map f := by
  unfold getAccount modifyAccount
  exact find?_updateFirst _ f (fun a => by simp [hid]) s.accounts

theorem getAccount_modifyAccount_proj {β : Type} (s : StoreData)
    (id id' : String) (f : Account → Account) (g : Account → β)
    (hid : ∀ a, (f a).id = a.id) (hg : ∀ a, g (f a) = g a) :
    ((getAccount (modifyAccount s id f) id').map g) = (getAccount s id').map g := by
  unfold getAccount modifyAccount
  exact find?_updateFirst_proj _ _ f g (fun a => by simp [hid]) hg s.accounts

theorem getAccount_pushActivity (s : StoreData) (aid : String)
    (t : ActivityType) (m ts id : String) :
    getAccount (pushActivity s aid t m ts) id = getAccount s id := rfl

theorem getAccount_updateAccountLikelihood (s : StoreData) (id : String)
    (x : ℤ) :
    getAccount (updateAccountLikelihood s id x) id =
      (getAccount s id).map (fun a => { a with likelihood := jsMax 0 (jsMin 100 x) }) := by
  unfold updateAccountLikelihood
  split
  · rename_i h
    simp [h]
  · exact getAccount_modifyAccount s id
      (fun a => { a with likelihood := jsMax 0 (jsMin 100 x) }) (fun a => rfl)

theorem getAccount_updateAccountStage (s : StoreData) (id : String)
    (st : Stage) (now : String) :
    getAccount (updateAccountStage s id st now) id =
      (getAccount s id).map (setStageAcct st) := by
  unfold updateAccountStage
  split
  · rename_i h
    simp [h]
  · rename_i a h
    by_cases hst : a.stage = st
    · rw [if_pos hst, h]
      simp [setStageAcct, hst]
    · rw [if_neg hst, getAccount_pushActivity,
        getAccount_modifyAccount s id (fun a => { a with stage := st }) (fun a => rfl), h]
      simp [setStageAcct, hst]

theorem getAccount_addNoteToAccount (s : StoreData) (id : String)
    (note now : String) :
    getAccount (addNoteToAccount s id note now) id =
      (getAccount s id).map (addNoteAcct note) := by
  unfold addNoteToAccount
  split
  · rename_i h
    simp [h]
  · rw [getAccount_pushActivity,
      getAccount_modifyAccount s id (fun a => { a with notes := a.notes ++ [note] })
        (fun a => rfl)]
    rfl

theorem getAccount_flagAccountRisk (s : StoreData) (id : String)
    (reason now : String) :
    getAccount (flagAccountRisk s id reason now) id =
      (getAccount s id).map (flagRiskAcct reason) := by
  unfold flagAccountRisk
  split
  · rename_i h
    simp [h]
  · rename_i a h
    rw [getAccount_addNoteToAccount]
    by_cases htag : a.tags.contains "at-risk" = true
    · have hmem : "at-risk" ∈ a.tags := by simpa using htag
      rw [if_pos htag, h]
      simp [flagRiskAcct, addNoteAcct, hmem]
    · have hmem : "at-risk" ∉ a.tags := by simpa using htag
      rw [if_neg htag,
        getAccount_modifyAccount s id (fun a => { a with tags := a.tags ++ ["at-risk"] })
          (fun a => rfl), h]
      simp [flagRiskAcct, addNoteAcct, hmem]

theorem getAccount_addCallRecord (s : StoreData) (aid : String)
    (rec : NewCallRecord) :
    getAccount (addCallRecord s aid rec).1 aid =
      (getAccount s aid).map (fun a => { a with lastContactDate := rec.date }) := by
  unfold addCallRecord
  exact getAccount_modifyAccount
    { s with counter := s.counter + 1,
             callRecords := s.callRecords ++
               [{ id := uid (s.counter + 1), accountId := rec.accountId,
                  date := rec.date, duration := rec.duration,
                  transcript := rec.transcript, sentiment := rec.sentiment,
                  outcome := rec.outcome }] }
    aid (fun a => { a with lastContactDate := rec.date }) (fun a => rfl)

/-- Account-level effect of step 1. -/
def acctStep1Map (body : AddCallBody) (acct : Account) : Account → Account :=
  fun a =>
    match likelihoodFromCallOf body with
    | some l =>
      { a with likelihood := jsMax 0 (jsMin 100
          (jsRound ((acct.likelihood : ℚ) * (3 / 10) + l * (7 / 10)))) }
    | none => a

/-- Account-level effect of the step-2 regression. -/
def acctStep2aMap (sc : ℚ) (acct : Account) : Account → Account :=
  fun a =>
    if sc ≤ 3 ∧ stageIdx acct.stage > 0 then
      match stageAt (stageIdx acct.stage - 1) with
      | some st => setStageAcct st a
      | none => a
    else a

/-- Account-level effect of the step-2 risk flag. -/
def acctStep2bMap (sc : ℚ) (body : AddCallBody) : Account → Account :=
  fun a =>
    if sc ≤ 3 then
      flagRiskAcct
        ("Negative call — sentiment " ++ toString sc ++ "/10: " ++
          body.outcome.getD "poor engagement") a
    else a

/-- Account-level effect of the step-2 advancement. -/
def acctStep2cMap (sc : ℚ) (acct : Account) : Account → Account :=
  fun a =>
    if sc ≥ 8 ∧ stageIdx acct.stage < 3 then
      match stageAt (stageIdx acct.stage + 1) with
      | some st => setStageAcct st a
      | none => a
    else a

/-- Account-level effect of step 2. -/
def acctStep2Map (body : AddCallBody) (acct : Account) : Account → Account :=
  fun a =>
    match sentimentScoreOf body with
    | some sc =>
      if stageIdx acct.stage ≥ 0 then
        acctStep2cMap sc acct (acctStep2bMap sc body (acctStep2aMap sc acct a))
      else a
    | none => a

/-- Account-level effect of step 3. -/
def acctStep3Map (body : AddCallBody) : Account → Account :=
  fun a =>
    match (body.analysis.bind (fun an => an.summary)) <|> body.outcome with
    | some summ =>
      if summ ≠ "" then addNoteAcct (callSummaryNote body summ) a else a
    | none => a

/-- Account-level effect of step 4. -/
def acctStep4Map (body : AddCallBody) : Account → Account :=
  fun a => { a with tags := callTagChanges body a.tags }

/-- Account-level effect of step 5. -/
def acctStep5Map (body : AddCallBody) (fu2 fu5 : String) : Account → Account :=
  fun a =>
    match body.analysis.bind (fun an => an.nextSteps) with
    | some steps =>
      if steps.length > 0 then
        { a with nextFollowUp := some (callFollowUpDate body fu2 fu5) }
      else a
    | none => a

/-- Account-level effect of step 6. -/
def acctStep6Map : Account → Account :=
  fun a =>
    if a.likelihood < 30 ∧ ¬ (a.tags.contains "at-risk" = true) then
      flagRiskAcct
        ("Likelihood dropped to " ++ toString a.likelihood ++ "% after call") a
    else a

/-- The rule engine's effect on the one account it targets, as a pure
function (the argument is the account right after `addCallRecord`, i.e.
with `lastContactDate` already set). -/
def ruleEngineAcct (body : AddCallBody) (fu2 fu5 : String) (acct : Account) :
    Account :=
  if acct.stage = .closed_won ∨ acct.stage = .closed_lost then acct
  else
    acctStep6Map (acctStep5Map body fu2 fu5 (acctStep4Map body (acctStep3Map body
      (acctStep2Map body acct (acctStep1Map body acct acct)))))

theorem getAccount_addCallStep1 (body : AddCallBody) (acct : Account)
    (s : StoreData) :
    getAccount (addCallStep1 body acct s) acct.id =
      (getAccount s acct.id).map (acctStep1Map body acct) := by
  unfold addCallStep1 acctStep1Map
  cases h : likelihoodFromCallOf body <;>
    simp [h, getAccount_updateAccountLikelihood]

theorem getAccount_addCallStep2a (sc : ℚ) (acct : Account) (now : String)
    (s : StoreData) :
    getAccount (addCallStep2a sc acct now s) acct.id =
      (getAccount s acct.id).map (acctStep2aMap sc acct) := by
  unfold addCallStep2a acctStep2aMap
  by_cases h : sc ≤ 3 ∧ stageIdx acct.stage > 0
  · cases hst : stageAt (stageIdx acct.stage - 1) <;>
      simp [h, hst, getAccount_updateAccountStage]
  · simp [h]

theorem getAccount_addCallStep2b (sc : ℚ) (body : AddCallBody) (acct : Account)
    (now : String) (s : StoreData) :
    getAccount (addCallStep2b sc body acct now s) acct.id =
      (getAccount s acct.id).map (acctStep2bMap sc body) := by
  unfold addCallStep2b acctStep2bMap
  by_cases h : sc ≤ 3 <;> simp [h, getAccount_flagAccountRisk]

theorem getAccount_addCallStep2c (sc : ℚ) (acct : Account) (now : String)
    (s : StoreData) :
    getAccount (addCallStep2c sc acct now s) acct.id =
      (getAccount s acct.id).map (acctStep2cMap sc acct) := by
  unfold addCallStep2c acctStep2cMap
  by_cases h : sc ≥ 8 ∧ stageIdx acct.stage < 3
  · cases hst : stageAt (stageIdx acct.stage + 1) <;>
      simp [h, hst, getAccount_updateAccountStage]
  · simp [h]

theorem getAccount_addCallStep2 (body : AddCallBody) (acct : Account)
    (now : String) (s : StoreData) :
    getAccount (addCallStep2 body acct now s) acct.id =
      (getAccount s acct.id).map (acctStep2Map body acct) := by
  unfold addCallStep2 acctStep2Map
  cases h : sentimentScoreOf body with
  | none => simp
  | some sc =>
    by_cases hidx : stageIdx acct.stage ≥ 0
    · simp [hidx, getAccount_addCallStep2c, getAccount_addCallStep2b,
        getAccount_addCallStep2a, Option.map_map, Function.comp_def]
    · simp [hidx]

theorem getAccount_addCallStep3 (body : AddCallBody) (acct : Account)
    (now : String) (s : StoreData) :
    getAccount (addCallStep3 body acct now s) acct.id =
      (getAccount s acct.id).map (acctStep3Map body) := by
  unfold addCallStep3 acctStep3Map
  cases h : (body.analysis.bind (fun an => an.summary)) <|> body.outcome with
  | none => simp
  | some summ =>
    by_cases hs : summ = "" <;> simp [hs, getAccount_addNoteToAccount]

theorem getAccount_addCallStep4 (body : AddCallBody) (acct : Account)
    (s : StoreData) :
    getAccount (addCallStep4 body acct s) acct.id =
      (getAccount s acct.id).map (acctStep4Map body) := by
  unfold addCallStep4 acctStep4Map
  exact getAccount_modifyAccount s acct.id
    (fun a => { a with tags := callTagChanges body a.tags }) (fun a => rfl)

theorem getAccount_addCallStep5 (body : AddCallBody) (acct : Account)
    (fu2 fu5 : String) (s : StoreData) :
    getAccount (addCallStep5 body acct fu2 fu5 s) acct.id =
      (getAccount s acct.id).map (acctStep5Map body fu2 fu5) := by
  unfold addCallStep5 acctStep5Map
  cases h : body.analysis.bind (fun an => an.nextSteps) with
  | none => simp
  | some steps =>
    by_cases hlen : steps.length > 0
    · simp only [h, hlen, if_true]
      exact getAccount_modifyAccount s acct.id
        (fun a => { a with nextFollowUp := some (callFollowUpDate body fu2 fu5) })
        (fun a => rfl)
    · simp [h, hlen]

theorem getAccount_addCallStep6 (body : AddCallBody) (acct : Account)
    (now : String) (s : StoreData) (hid : acct.id = body.accountId) :
    getAccount (addCallStep6 body acct now s) acct.id =
      (getAccount s acct.id).map acctStep6Map := by
  unfold addCallStep6 acctStep6Map
  rw [hid]
  cases h : getAccount s body.accountId with
  | none => simp [h]
  | some refreshed =>
    by_cases h1 : refreshed.likelihood < 30
    · by_cases h2 : "at-risk" ∈ refreshed.tags
      · simp [h, h1, h2]
      · simp [h, h1, h2, getAccount_flagAccountRisk]
    · simp [h, h1]

theorem runRuleEngine_getAccount (body : AddCallBody) (now fu2 fu5 : String)
    (s1 : StoreData) :
    getAccount (runRuleEngine body now fu2 fu5 s1) body.accountId =
      (getAccount s1 body.accountId).map (ruleEngineAcct body fu2 fu5) := by
  unfold runRuleEngine
  cases h : getAccount s1 body.accountId with
  | none => simp [h]
  | some acct =>
    have hid : acct.id = body.accountId := getAccount_eq_some_id h
    rw [← hid] at h ⊢
    by_cases hterm : acct.stage = .closed_won ∨ acct.stage = .closed_lost
    · simp [h, hterm, ruleEngineAcct]
    · have g1 : getAccount (addCallStep1 body acct s1) acct.id =
          some (acctStep1Map body acct acct) := by
        rw [getAccount_addCallStep1, h]; rfl
      have g2 := getAccount_addCallStep2 body acct now (addCallStep1 body acct s1)
      rw [g1] at g2
      have g3 := getAccount_addCallStep3 body acct now
        (addCallStep2 body acct now (addCallStep1 body acct s1))
      rw [g2] at g3
      have g4 := getAccount_addCallStep4 body acct
        (addCallStep3 body acct now
          (addCallStep2 body acct now (addCallStep1 body acct s1)))
      rw [g3] at g4
      have g5 := getAccount_addCallStep5 body acct fu2 fu5
        (addCallStep4 body acct
          (addCallStep3 body acct now
            (addCallStep2 body acct now (addCallStep1 body acct s1))))
      rw [g4] at g5
      have g6 := getAccount_addCallStep6 body acct now
        (addCallStep5 body acct fu2 fu5
          (addCallStep4 body acct
            (addCallStep3 body acct now
              (addCallStep2 body acct now (addCallStep1 body acct s1))))) hid
      rw [g5] at g6
      simp [h, hterm, g6, ruleEngineAcct]

theorem addCall_getAccount (s : StoreData) (body : AddCallBody)
    (now fu2 fu5 : String) :
    getAccount (addCall s body now fu2 fu5).1 body.accountId =
      (getAccount s body.accountId).map
        (fun a => ruleEngineAcct body fu2 fu5
          { a with lastContactDate := body.date.getD now }) := by
  show getAccount
      (runRuleEngine body now fu2 fu5
        (addCallRecord s body.accountId (addCallNewRecord body now)).1)
      body.accountId = _
  rw [runRuleEngine_getAccount, getAccount_addCallRecord]
  simp [Option.map_map, Function.comp_def, addCallNewRecord]

/-! ## Projection lemmas for the account-level maps -/

theorem setStageAcct_stage (st : Stage) (a : Account) :
    (setStageAcct st a).stage = st := by
  unfold setStageAcct; split <;> simp_all

theorem setStageAcct_likelihood (st : Stage) (a : Account) :
    (setStageAcct st a).likelihood = a.likelihood := by
  unfold setStageAcct; split <;> rfl

theorem setStageAcct_notes (st : Stage) (a : Account) :
    (setStageAcct st a).notes = a.notes := by
  unfold setStageAcct; split <;> rfl

theorem setStageAcct_tags (st : Stage) (a : Account) :
    (setStageAcct st a).tags = a.tags := by
  unfold setStageAcct; split <;> rfl

theorem setStageAcct_nextFollowUp (st : Stage) (a : Account) :
    (setStageAcct st a).nextFollowUp = a.nextFollowUp := by
  unfold setStageAcct; split <;> rfl

theorem flagRiskAcct_likelihood (r : String) (a : Account) :
    (flagRiskAcct r a).likelihood = a.likelihood := by
  unfold flagRiskAcct addNoteAcct; split <;> rfl

theorem flagRiskAcct_stage (r : String) (a : Account) :
    (flagRiskAcct r a).stage = a.stage := by
  unfold flagRiskAcct addNoteAcct; split <;> rfl

theorem flagRiskAcct_nextFollowUp (r : String) (a : Account) :
    (flagRiskAcct r a).nextFollowUp = a.nextFollowUp := by
  unfold flagRiskAcct addNoteAcct; split <;> rfl

theorem flagRiskAcct_notes (r : String) (a : Account) :
    (flagRiskAcct r a).notes = a.notes ++ ["⚠️ AT-RISK: " ++ r] := by
  unfold flagRiskAcct addNoteAcct; split <;> rfl

theorem flagRiskAcct_tags (r : String) (a : Account) :
    (flagRiskAcct r a).tags =
      if a.tags.contains "at-risk" then a.tags else a.tags ++ ["at-risk"] := by
  unfold flagRiskAcct addNoteAcct; split <;> simp_all

theorem acctStep1Map_stage (body : AddCallBody) (acct a : Account) :
    (acctStep1Map body acct a).stage = a.stage := by
  unfold acctStep1Map; cases likelihoodFromCallOf body <;> rfl

theorem acctStep1Map_tags (body : AddCallBody) (acct a : Account) :
    (acctStep1Map body acct a).tags = a.tags := by
  unfold acctStep1Map; cases likelihoodFromCallOf body <;> rfl

theorem acctStep1Map_notes (body : AddCallBody) (acct a : Account) :
    (acctStep1Map body acct a).notes = a.notes := by
  unfold acctStep1Map; cases likelihoodFromCallOf body <;> rfl

theorem acctStep1Map_nextFollowUp (body : AddCallBody) (acct a : Account) :
    (acctStep1Map body acct a).nextFollowUp = a.nextFollowUp := by
  unfold acctStep1Map; cases likelihoodFromCallOf body <;> rfl

theorem acctStep2aMap_likelihood (sc : ℚ) (acct a : Account) :
    (acctStep2aMap sc acct a).likelihood = a.likelihood := by
  unfold acctStep2aMap
  split
  · cases stageAt (stageIdx acct.stage - 1) <;> simp [setStageAcct_likelihood]
  · rfl

theorem acctStep2bMap_likelihood (sc : ℚ) (body : AddCallBody) (a : Account) :
    (acctStep2bMap sc body a).likelihood = a.likelihood := by
  unfold acctStep2bMap; split <;> simp [flagRiskAcct_likelihood]

theorem acctStep2cMap_likelihood (sc : ℚ) (acct a : Account) :
    (acctStep2cMap sc acct a).likelihood = a.likelihood := by
  unfold acctStep2cMap
  split
  · cases stageAt (stageIdx acct.stage + 1) <;> simp [setStageAcct_likelihood]
  · rfl

theorem acctStep2Map_likelihood (body : AddCallBody) (acct a : Account) :
    (acctStep2Map body acct a).likelihood = a.likelihood := by
  unfold acctStep2Map
  cases sentimentScoreOf body with
  | none => rfl
  | some sc =>
    by_cases hidx : stageIdx acct.stage ≥ 0
    · simp [hidx, acctStep2cMap_likelihood, acctStep2bMap_likelihood,
        acctStep2aMap_likelihood]
    · simp [hidx]

theorem acctStep3Map_likelihood (body : AddCallBody) (a : Account) :
    (acctStep3Map body a).likelihood = a.likelihood := by
  unfold acctStep3Map
  split <;> (try split) <;> rfl

theorem acctStep4Map_likelihood (body : AddCallBody) (a : Account) :
    (acctStep4Map body a).likelihood = a.likelihood := rfl

theorem acctStep5Map_likelihood (body : AddCallBody) (fu2 fu5 : String)
    (a : Account) :
    (acctStep5Map body fu2 fu5 a).likelihood = a.likelihood := by
  unfold acctStep5Map
  split <;> (try split) <;> rfl

theorem acctStep6Map_likelihood (a : Account) :
    (acctStep6Map a).likelihood = a.likelihood := by
  unfold acctStep6Map; split <;> simp [flagRiskAcct_likelihood]

theorem acctStep3Map_stage (body : AddCallBody) (a : Account) :
    (acctStep3Map body a).stage = a.stage := by
  unfold acctStep3Map
  split <;> (try split) <;> rfl

theorem acctStep4Map_stage (body : AddCallBody) (a : Account) :
    (acctStep4Map body a).stage = a.stage := rfl

theorem acctStep5Map_stage (body : AddCallBody) (fu2 fu5 : String)
    (a : Account) :
    (acctStep5Map body fu2 fu5 a).stage = a.stage := by
  unfold acctStep5Map
  split <;> (try split) <;> rfl

theorem acctStep6Map_stage (a : Account) :
    (acctStep6Map a).stage = a.stage := by
  unfold acctStep6Map; split <;> simp [flagRiskAcct_stage]

/-- Likelihood characterization of the whole rule engine on a
non-terminal account: only the step-1 blend touches it. -/
theorem ruleEngineAcct_likelihood (body : AddCallBody) (fu2 fu5 : String)
    (a : Account) (h : ¬ (a.stage = .closed_won ∨ a.stage = .closed_lost)) :
    (ruleEngineAcct body fu2 fu5 a).likelihood =
      match likelihoodFromCallOf body with
      | some l => jsMax 0 (jsMin 100
          (jsRound ((a.likelihood : ℚ) * (3 / 10) + l * (7 / 10))))
      | none => a.likelihood := by
  unfold ruleEngineAcct
  rw [if_neg h, acctStep6Map_likelihood, acctStep5Map_likelihood,
    acctStep4Map_likelihood, acctStep3Map_likelihood, acctStep2Map_likelihood]
  unfold acctStep1Map
  cases likelihoodFromCallOf body <;> rfl

theorem stageIdx_nonneg {a : Account}
    (h : ¬ (a.stage = .closed_won ∨ a.stage = .closed_lost)) :
    stageIdx a.stage ≥ 0 := by
  cases ha : a.stage <;> simp_all [stageIdx]

theorem acctStep2aMap_stage (sc : ℚ) (acct a : Account) :
    (acctStep2aMap sc acct a).stage =
      if sc ≤ 3 ∧ stageIdx acct.stage > 0 then
        (stageAt (stageIdx acct.stage - 1)).getD a.stage
      else a.stage := by
  unfold acctStep2aMap
  split
  · cases stageAt (stageIdx acct.stage - 1) <;> simp_all [setStageAcct_stage]
  · simp_all

theorem acctStep2bMap_stage (sc : ℚ) (body : AddCallBody) (a : Account) :
    (acctStep2bMap sc body a).stage = a.stage := by
  unfold acctStep2bMap; split <;> simp [flagRiskAcct_stage]

theorem acctStep2cMap_stage (sc : ℚ) (acct a : Account) :
    (acctStep2cMap sc acct a).stage =
      if sc ≥ 8 ∧ stageIdx acct.stage < 3 then
        (stageAt (stageIdx acct.stage + 1)).getD a.stage
      else a.stage := by
  unfold acctStep2cMap
  split
  · cases stageAt (stageIdx acct.stage + 1) <;> simp_all [setStageAcct_stage]
  · simp_all

/-- Stage characterization of the whole rule engine on a non-terminal
account with a numeric sentiment score. -/
theorem ruleEngineAcct_stage (body : AddCallBody) (fu2 fu5 : String)
    (a : Account) (sc : ℚ) (hsc : sentimentScoreOf body = some sc)
    (h : ¬ (a.stage = .closed_won ∨ a.stage = .closed_lost)) :
    (ruleEngineAcct body fu2 fu5 a).stage =
      if sc ≤ 3 ∧ stageIdx a.stage > 0 then
        (stageAt (stageIdx a.stage - 1)).getD a.stage
      else if sc ≥ 8 ∧ stageIdx a.stage < 3 then
        (stageAt (stageIdx a.stage + 1)).getD a.stage
      else a.stage := by
  unfold ruleEngineAcct
  rw [if_neg h, acctStep6Map_stage, acctStep5Map_stage, acctStep4Map_stage,
    acctStep3Map_stage]
  unfold acctStep2Map
  rw [hsc]
  simp only [if_pos (stageIdx_nonneg h), acctStep2cMap_stage,
    acctStep2bMap_stage, acctStep2aMap_stage, acctStep1Map_stage]
  by_cases c1 : sc ≤ 3 ∧ stageIdx a.stage > 0
  · by_cases c2 : sc ≥ 8 ∧ stageIdx a.stage < 3
    · exact absurd (le_trans c2.1 c1.1) (by norm_num)
    · simp [c1, c2]
  · by_cases c2 : sc ≥ 8 ∧ stageIdx a.stage < 3
    · simp [c1, c2]
    · simp [c1, c2]

/-! ## Example fixtures -/

/-- A sample account in the `proposal` stage (likelihood 50). -/
def exAccount : Account :=
  { id := "acc-1", company := "Meridian Health", contactName := "Sarah Chen",
    contactEmail := "s.chen@meridianhealth.com",
    contactRole := "VP of Engineering", plan := .enterprise,
    stage := .proposal, dealValue := 240000, likelihood := 50,
    industry := "Healthcare", notes := [], lastContactDate := "d0",
    nextFollowUp := some "d2", tags := ["enterprise"] }

/-- A store holding just `exAccount`. -/
def exStore : StoreData :=
  { accounts := [exAccount], callRecords := [], activities := [], counter := 0 }

/-- A negative-call request body (sentiment 2, likelihood-to-close 40),
the spec's regression scenario. -/
def exBody1 : AddCallBody :=
  { accountId := "acc-1", date := some "d1", duration := some 600,
    transcript := some "t", sentiment := none,
    outcome := some "Sent proposal",
    analysis := some
      { overallSentiment := some 2, likelihoodToClose := some 40,
        summary := some "Tough call", nextSteps := some ["Send docs"],
        painPoints := some ["budget is tight"] } }

/-! ## C1 — likelihood blend -/

/-- C1: for every account in a non-terminal stage and every addCall
request, the account's likelihood after the rule engine equals
round(old × 0.3 + likelihoodToClose × 0.7) clamped to [0,100] when the
analysis carries a numeric `likelihoodToClose`, and is unchanged when it
is absent or not a number. -/
theorem addCall_likelihood_blend (s : StoreData) (body : AddCallBody)
    (now fu2 fu5 : String) (acct : Account)
    (hfind : getAccount s body.accountId = some acct)
    (hterm : ¬ (acct.stage = .closed_won ∨ acct.stage = .closed_lost)) :
    (getAccount (addCall s body now fu2 fu5).1 body.accountId).map
        (fun a => a.likelihood) =
      some (match likelihoodFromCallOf body with
            | some l => jsMax 0 (jsMin 100 (jsRound
                ((acct.likelihood : ℚ) * (3 / 10) + l * (7 / 10))))
            | none => acct.likelihood) := by
  have hacc := addCall_getAccount s body now fu2 fu5
  rw [hfind] at hacc
  rw [hacc]
  simp only [Option.map_some']
  have hl := ruleEngineAcct_likelihood body fu2 fu5
    { acct with lastContactDate := body.date.getD now } hterm
  rw [hl]

/-- Witness for C1: the spec scenario (likelihood 50, call likelihood 40)
lands at round(50 × 0.3 + 40 × 0.7) = 43. -/
theorem addCall_likelihood_blend_witness :
    (getAccount (addCall exStore exBody1 "t1" "f2" "f5").1
        exBody1.accountId).map (fun a => a.likelihood) = some 43 := by
  have h := addCall_likelihood_blend exStore exBody1 "t1" "f2" "f5" exAccount
    rfl (by decide)
  rw [h]
  norm_num [likelihoodFromCallOf, exBody1, exAccount, jsRound, jsMax, jsMin]

/-! ## C2 — stage auto-adjustment -/

/-- C2: with a numeric sentiment score `sc` on a non-terminal account,
the rule engine regresses exactly one stage when sc ≤ 3 and the stage
index is positive, advances exactly one stage when sc ≥ 8 and the index
is below 3, and leaves the stage unchanged for sc in [4,7]; the full
characterization shows regression and advancement are mutually
exclusive. -/
theorem addCall_stage_adjust (s : StoreData) (body : AddCallBody)
    (now fu2 fu5 : String) (acct : Account) (sc : ℚ)
    (hfind : getAccount s body.accountId = some acct)
    (hsc : sentimentScoreOf body = some sc)
    (hterm : ¬ (acct.stage = .closed_won ∨ acct.stage = .closed_lost)) :
    ((getAccount (addCall s body now fu2 fu5).1 body.accountId).map
        (fun a => a.stage) =
      some (if sc ≤ 3 ∧ stageIdx acct.stage > 0 then
              (stageAt (stageIdx acct.stage - 1)).getD acct.stage
            else if sc ≥ 8 ∧ stageIdx acct.stage < 3 then
              (stageAt (stageIdx acct.stage + 1)).getD acct.stage
            else acct.stage))
    ∧ (sc ≤ 3 ∧ stageIdx acct.stage > 0 →
        (getAccount (addCall s body now fu2 fu5).1 body.accountId).map
          (fun a => stageIdx a.stage) = some (stageIdx acct.stage - 1))
    ∧ (sc ≥ 8 ∧ stageIdx acct.stage < 3 →
        (getAccount (addCall s body now fu2 fu5).1 body.accountId).map
          (fun a => stageIdx a.stage) = some (stageIdx acct.stage + 1))
    ∧ (4 ≤ sc ∧ sc ≤ 7 →
        (getAccount (addCall s body now fu2 fu5).1 body.accountId).map
          (fun a => a.stage) = some acct.stage) := by
  have hacc := addCall_getAccount s body now fu2 fu5
  rw [hfind] at hacc
  have hst := ruleEngineAcct_stage body fu2 fu5
    { acct with lastContactDate := body.date.getD now } sc hsc hterm
  rw [hacc]
  refine ⟨?_, ?_, ?_, ?_⟩
  · simp only [Option.map_some']
    exact congrArg some hst
  · rintro ⟨h3, hpos⟩
    simp only [Option.map_some']
    rw [hst, if_pos ⟨h3, hpos⟩]
    cases hstg : acct.stage <;> simp_all [stageIdx, stageAt]
  · rintro ⟨h8, hlt⟩
    have hc1 : ¬ (sc ≤ 3 ∧ stageIdx acct.stage > 0) := by
      rintro ⟨h3, _⟩
      have : (8 : ℚ) ≤ 3 := le_trans h8 h3
      norm_num at this
    simp only [Option.map_some']
    rw [hst, if_neg hc1, if_pos ⟨h8, hlt⟩]
    cases hstg : acct.stage <;> simp_all [stageIdx, stageAt]
  · rintro ⟨h4, h7⟩
    have hc1 : ¬ (sc ≤ 3 ∧ stageIdx acct.stage > 0) := by
      rintro ⟨h3, _⟩
      have : (4 : ℚ) ≤ 3 := le_trans h4 h3
      norm_num at this
    have hc2 : ¬ (sc ≥ 8 ∧ stageIdx acct.stage < 3) := by
      rintro ⟨h8, _⟩
      have : (8 : ℚ) ≤ 7 := le_trans h8 h7
      norm_num at this
    simp only [Option.map_some']
    rw [hst, if_neg hc1, if_neg hc2]

/-- Witness for C2: sentiment 2 on a `proposal` account regresses it to
`discovery`. -/
theorem addCall_stage_adjust_witness :
    (getAccount (addCall exStore exBody1 "t1" "f2" "f5").1
        exBody1.accountId).map (fun a => a.stage) = some Stage.discovery := by
  have h := addCall_stage_adjust exStore exBody1 "t1" "f2" "f5" exAccount 2
    rfl rfl (by decide)
  rw [h.1]
  norm_num [exAccount, stageIdx, stageAt]

/-! ## C4 — pipeline statistics -/

/-- The claim's reading of "active": neither `closed_won` nor
`closed_lost` (the filter used by the `src/lib/data.ts` variant). -/
def specActiveAccounts (accounts : List Account) : List Account :=
  accounts.filter
    (fun a => a.stage != Stage.closed_won && a.stage != Stage.closed_lost)

/-- Accounts the store variant treats as active: everything not
`closed_lost`. -/
def storeActiveAccounts (accounts : List Account) : List Account :=
  accounts.filter (fun a => a.stage != Stage.closed_lost)

/-- A closed_won account of value 100. -/
def exStatsWon : Account :=
  { exAccount with
    id := "w1"
    stage := .closed_won
    dealValue := 100
    likelihood := 100 }

/-- A lead account of value 50. -/
def exStatsLead : Account :=
  { exAccount with
    id := "l1"
    stage := .lead
    dealValue := 50
    likelihood := 50 }

/-- A closed_lost account of value 20. -/
def exStatsLost : Account :=
  { exAccount with
    id := "x1"
    stage := .closed_lost
    dealValue := 20
    likelihood := 0 }

/-- Three accounts: one closed_won (value 100), one lead (value 50),
one closed_lost (value 20). -/
def exStatsAccounts : List Account := [exStatsWon, exStatsLead, exStatsLost]

/-- Store wrapping `exStatsAccounts`. -/
def exStatsStore : StoreData :=
  { accounts := exStatsAccounts, callRecords := [], activities := [],
    counter := 0 }

/-- C4 counterexample: on `exStatsAccounts` the store's
`getPipelineStats` (the implementation the API route serves) counts the
closed_won account into `totalPipelineValue` (150, not the claimed 50),
averages deal size over the not-closed_lost accounts (75) instead of
over all accounts (170/3), and averages likelihood over the
not-closed_lost accounts too ((100+50)/2 = 75, not the claimed mean 50
over the accounts in neither closed stage). -/
theorem getPipelineStats_counterexample :
    (getPipelineStats exStatsStore).totalPipelineValue = 150 ∧
    ((specActiveAccounts exStatsStore.accounts).map
        (fun a => a.dealValue)).sum = 50 ∧
    (getPipelineStats exStatsStore).averageDealSize = 75 ∧
    ((exStatsStore.accounts.map (fun a => a.dealValue)).sum /
        (exStatsStore.accounts.length : ℚ)) = 170 / 3 ∧
    (getPipelineStats exStatsStore).averageLikelihood = 75 ∧
    (((specActiveAccounts exStatsStore.accounts).map
        (fun a => (a.likelihood : ℚ))).sum /
        ((specActiveAccounts exStatsStore.accounts).length : ℚ)) = 50 := by
  refine ⟨?_, ?_, ?_, ?_, ?_, ?_⟩ <;>
  · simp [getPipelineStats, specActiveAccounts, exStatsStore, exStatsAccounts,
      exStatsWon, exStatsLead, exStatsLost, exAccount, jsRound] <;> norm_num

/-- C4 amended: the `src/lib/data.ts` variant of `getPipelineStats`
computes the four statistics exactly as the claim states (actives
exclude both closed stages, average deal size over ALL accounts,
average likelihood over actives), while the store variant — the one the
route serves — filters out only `closed_lost` and takes the rounded
means of deal size and of likelihood over those accounts. -/
theorem getPipelineStats_characterization (s : StoreData) :
    ((DataLib.getPipelineStats s.accounts).totalPipelineValue =
        ((specActiveAccounts s.accounts).map (fun a => a.dealValue)).sum)
    ∧ ((DataLib.getPipelineStats s.accounts).weightedPipelineValue =
        ((specActiveAccounts s.accounts).map
          (fun a => a.dealValue * (a.likelihood : ℚ) / 100)).sum)
    ∧ (s.accounts.length ≠ 0 →
        (DataLib.getPipelineStats s.accounts).averageDealSize =
          (s.accounts.map (fun a => a.dealValue)).sum / (s.accounts.length : ℚ))
    ∧ ((specActiveAccounts s.accounts).length ≠ 0 →
        (DataLib.getPipelineStats s.accounts).averageLikelihood =
          ((specActiveAccounts s.accounts).map
            (fun a => (a.likelihood : ℚ))).sum /
            ((specActiveAccounts s.accounts).length : ℚ))
    ∧ ((getPipelineStats s).totalPipelineValue =
        ((storeActiveAccounts s.accounts).map (fun a => a.dealValue)).sum)
    ∧ ((getPipelineStats s).weightedPipelineValue =
        ((storeActiveAccounts s.accounts).map
          (fun a => a.dealValue * (a.likelihood : ℚ) / 100)).sum)
    ∧ ((storeActiveAccounts s.accounts).length ≠ 0 →
        (getPipelineStats s).averageDealSize =
          (jsRound (((storeActiveAccounts s.accounts).map
              (fun a => a.dealValue)).sum /
              ((storeActiveAccounts s.accounts).length : ℚ)) : ℚ))
    ∧ ((storeActiveAccounts s.accounts).length ≠ 0 →
        (getPipelineStats s).averageLikelihood =
          (jsRound (((storeActiveAccounts s.accounts).map
              (fun a => (a.likelihood : ℚ))).sum /
              ((storeActiveAccounts s.accounts).length : ℚ)) : ℚ)) := by
  refine ⟨?_, ?_, ?_, ?_, ?_, ?_, ?_, ?_⟩
  · rfl
  · simp [DataLib.getPipelineStats, specActiveAccounts, mul_div_assoc]
  · intro h
    simp only [DataLib.getPipelineStats]
    rw [if_pos h]
  · intro h
    simp only [specActiveAccounts] at h ⊢
    simp only [DataLib.getPipelineStats]
    rw [if_pos h]
  · rfl
  · simp [getPipelineStats, storeActiveAccounts, mul_div_assoc]
  · intro h
    simp only [storeActiveAccounts] at h ⊢
    simp only [getPipelineStats]
    rw [if_pos h]
  · intro h
    simp only [storeActiveAccounts] at h ⊢
    simp only [getPipelineStats]
    rw [if_pos h]

/-- Witness for the amended C4 theorem, instantiated on
`exStatsAccounts` (all denominators non-zero). -/
theorem getPipelineStats_characterization_witness :
    (DataLib.getPipelineStats exStatsStore.accounts).averageDealSize = 170 / 3
    ∧ (DataLib.getPipelineStats exStatsStore.accounts).totalPipelineValue = 50
    ∧ (getPipelineStats exStatsStore).averageDealSize = 75
    ∧ (getPipelineStats exStatsStore).averageLikelihood = 75 := by
  have h := getPipelineStats_characterization exStatsStore
  refine ⟨?_, ?_, ?_, ?_⟩
  · rw [h.2.2.1 (by simp [exStatsStore, exStatsAccounts])]
    simp [exStatsStore, exStatsAccounts, exStatsWon, exStatsLead,
      exStatsLost, exAccount] <;> norm_num
  · rw [h.1]
    simp [specActiveAccounts, exStatsStore, exStatsAccounts, exStatsWon,
      exStatsLead, exStatsLost, exAccount] <;> norm_num
  · rw [h.2.2.2.2.2.2.1
      (by simp [storeActiveAccounts, exStatsStore, exStatsAccounts,
        exStatsWon, exStatsLead, exStatsLost, exAccount])]
    simp [storeActiveAccounts, exStatsStore, exStatsAccounts, exStatsWon,
      exStatsLead, exStatsLost, exAccount, jsRound] <;> norm_num
  · rw [h.2.2.2.2.2.2.2
      (by simp [storeActiveAccounts, exStatsStore, exStatsAccounts,
        exStatsWon, exStatsLead, exStatsLost, exAccount])]
    simp [storeActiveAccounts, exStatsStore, exStatsAccounts, exStatsWon,
      exStatsLead, exStatsLost, exAccount, jsRound] <;> norm_num

/-! ## C5 — tag update rules -/

theorem mem_addTag (tags : List String) (t x : String) :
    x ∈ addTag tags t ↔ x ∈ tags ∨ x = t := by
  unfold addTag
  by_cases h : t ∈ tags
  · rw [if_pos (by simpa using h)]
    exact ⟨Or.inl, fun hx => hx.elim id (fun he => he ▸ h)⟩
  · rw [if_neg (by simpa using h)]
    simp [List.mem_append]

theorem mem_foldl_addTag (l : List String) (tags : List String) (x : String) :
    x ∈ l.foldl addTag tags ↔ x ∈ tags ∨ x ∈ l := by
  induction l generalizing tags with
  | nil => simp
  | cons y ys ih =>
    simp only [List.foldl_cons, ih, mem_addTag, List.mem_cons]
    tauto

theorem count_addTag_ne (tags : List String) (t x : String) (h : x ≠ t) :
    (addTag tags t).count x = tags.count x := by
  unfold addTag
  split
  · rfl
  · simp [List.count_append, List.count_singleton, h]

theorem count_foldl_addTag_ne (l : List String) (tags : List String)
    (x : String) (h : x ∉ l) :
    (l.foldl addTag tags).count x = tags.count x := by
  induction l generalizing tags with
  | nil => rfl
  | cons y ys ih =>
    simp only [List.mem_cons, not_or] at h
    simp only [List.foldl_cons, ih _ h.2, count_addTag_ne _ _ _ h.1]

theorem count_removeTag_self (tags : List String) (x : String) :
    (removeTag tags x).count x = tags.count x - 1 := by
  induction tags with
  | nil => rfl
  | cons y ys ih =>
    by_cases h : y = x
    · subst h
      simp [removeTag, removeFirst, List.count_cons_self]
    · have hb : (y == x) = false := beq_eq_false_iff_ne.mpr h
      have hxy : (x == y) = false :=
        beq_eq_false_iff_ne.mpr (fun hh => h hh.symm)
      simp only [removeTag, removeFirst, hb, Bool.false_eq_true, if_false]
        at ih ⊢
      rw [List.count_cons, List.count_cons, ih]
      simp only [hb, hxy, Bool.false_eq_true, if_false, Nat.add_zero]

theorem mem_removeTag_ne (tags : List String) (t x : String) (h : x ≠ t) :
    x ∈ removeTag tags t ↔ x ∈ tags := by
  unfold removeTag
  induction tags with
  | nil => simp [removeFirst]
  | cons y ys ih =>
    by_cases hy : y = t
    · subst hy
      simp [removeFirst, h]
    · have hb : (y == t) = false := beq_eq_false_iff_ne.mpr hy
      simp [removeFirst, hb, ih]

theorem not_mem_removeTag_self (tags : List String) (x : String)
    (h : tags.count x ≤ 1) : x ∉ removeTag tags x := by
  have hc := count_removeTag_self tags x
  have hz : (removeTag tags x).count x = 0 := by omega
  exact List.count_eq_zero.mp hz

theorem removeTag_of_not_mem (tags : List String) (t : String)
    (h : t ∉ tags) : removeTag tags t = tags := by
  unfold removeTag
  induction tags with
  | nil => rfl
  | cons y ys ih =>
    simp only [List.mem_cons, not_or] at h
    have hb : (y == t) = false :=
      beq_eq_false_iff_ne.mpr (fun hy => h.1 hy.symm)
    simp only [removeFirst, hb, Bool.false_eq_true, if_false]
    rw [ih h.2]

theorem addTag_of_mem (tags : List String) (t : String) (h : t ∈ tags) :
    addTag tags t = tags := by
  unfold addTag
  rw [if_pos (by simpa using h)]

theorem mem_foldl_removeTag_of_ne (rm : List String) (base : List String)
    (x : String) (h : ∀ t ∈ rm, x ≠ t) :
    x ∈ rm.foldl removeTag base ↔ x ∈ base := by
  induction rm generalizing base with
  | nil => simp
  | cons y ys ih =>
    simp only [List.foldl_cons]
    rw [ih _ (fun t ht => h t (List.mem_cons_of_mem _ ht)),
      mem_removeTag_ne _ _ _ (h y (List.mem_cons_self _ _))]

theorem mem_applyTagChanges_iff (tags toAdd rm : List String) (x : String)
    (h : ∀ t ∈ rm, x ≠ t) :
    x ∈ applyTagChanges tags toAdd rm ↔ x ∈ tags ∨ x ∈ toAdd := by
  unfold applyTagChanges
  rw [mem_foldl_removeTag_of_ne _ _ _ h, mem_foldl_addTag]

theorem mem_callTagsToRemove (s : Option ℚ) (t : String)
    (ht : t ∈ callTagsToRemove s) : t = "at-risk" ∨ t = "engaged" := by
  unfold callTagsToRemove at ht
  cases s with
  | none => simp at ht
  | some sc =>
    simp only [] at ht
    split_ifs at ht <;> simp_all

theorem callTagsToRemove_of_ge (sc : ℚ) (h8 : 8 ≤ sc) :
    callTagsToRemove (some sc) = ["at-risk"] := by
  simp only [callTagsToRemove]
  rw [if_pos h8]

theorem callTagsToRemove_of_le (sc : ℚ) (h3 : sc ≤ 3) (hn8 : ¬ (8 : ℚ) ≤ sc) :
    callTagsToRemove (some sc) = ["engaged"] := by
  simp only [callTagsToRemove]
  rw [if_neg hn8, if_pos h3]

theorem engaged_mem_callTagsToAdd (sc : ℚ) (l : Option ℚ)
    (p : Option (List String)) (h8 : 8 ≤ sc) :
    "engaged" ∈ callTagsToAdd (some sc) l p := by
  simp only [callTagsToAdd]
  rw [if_pos h8]
  simp

theorem atRisk_mem_callTagsToAdd (sc : ℚ) (l : Option ℚ)
    (p : Option (List String)) (h3 : sc ≤ 3) (hn8 : ¬ (8 : ℚ) ≤ sc) :
    "at-risk" ∈ callTagsToAdd (some sc) l p := by
  simp only [callTagsToAdd]
  rw [if_neg hn8, if_pos h3]
  simp

theorem atRisk_not_mem_callTagsToAdd (sc : ℚ) (l : Option ℚ)
    (p : Option (List String)) (h8 : 8 ≤ sc) :
    "at-risk" ∉ callTagsToAdd (some sc) l p := by
  simp only [callTagsToAdd]
  rw [if_pos h8]
  cases l <;> cases p <;> simp only [] <;> (try split_ifs) <;> decide

theorem engaged_not_mem_callTagsToAdd (sc : ℚ) (l : Option ℚ)
    (p : Option (List String)) (h3 : sc ≤ 3) (hn8 : ¬ (8 : ℚ) ≤ sc) :
    "engaged" ∉ callTagsToAdd (some sc) l p := by
  simp only [callTagsToAdd]
  rw [if_neg hn8, if_pos h3]
  cases l <;> cases p <;> simp only [] <;> (try split_ifs) <;> decide

theorem highPriority_mem_callTagsToAdd (s : Option ℚ) (lv : ℚ)
    (p : Option (List String)) (h75 : 75 ≤ lv) :
    "high-priority" ∈ callTagsToAdd s (some lv) p := by
  simp only [callTagsToAdd]
  rw [if_pos h75]
  simp

theorem budgetConcern_mem_callTagsToAdd (s l : Option ℚ) (ps : List String)
    (hb : strIncludes (jsToLower (" ".intercalate ps)) "budget" = true ∨
      strIncludes (jsToLower (" ".intercalate ps)) "price" = true ∨
      strIncludes (jsToLower (" ".intercalate ps)) "cost" = true) :
    "budget-concern" ∈ callTagsToAdd s l (some ps) := by
  have hps : ps.length > 0 := by
    cases ps with
    | nil => rcases hb with hb | hb | hb <;> exact absurd hb (by decide)
    | cons a as => simp
  have hcond : (strIncludes (jsToLower (" ".intercalate ps)) "budget" ||
      strIncludes (jsToLower (" ".intercalate ps)) "price" ||
      strIncludes (jsToLower (" ".intercalate ps)) "cost") = true := by
    rcases hb with hb | hb | hb <;> simp [hb]
  simp only [callTagsToAdd]
  rw [if_pos hps, if_pos hcond]
  simp

theorem complianceBlocker_mem_callTagsToAdd (s l : Option ℚ) (ps : List String)
    (hb : strIncludes (jsToLower (" ".intercalate ps)) "compliance" = true ∨
      strIncludes (jsToLower (" ".intercalate ps)) "security" = true ∨
      strIncludes (jsToLower (" ".intercalate ps)) "legal" = true) :
    "compliance-blocker" ∈ callTagsToAdd s l (some ps) := by
  have hps : ps.length > 0 := by
    cases ps with
    | nil => rcases hb with hb | hb | hb <;> exact absurd hb (by decide)
    | cons a as => simp
  have hcond : (strIncludes (jsToLower (" ".intercalate ps)) "compliance" ||
      strIncludes (jsToLower (" ".intercalate ps)) "security" ||
      strIncludes (jsToLower (" ".intercalate ps)) "legal") = true := by
    rcases hb with hb | hb | hb <;> simp [hb]
  simp only [callTagsToAdd]
  rw [if_pos hps, if_pos hcond]
  simp

theorem urgentTimeline_mem_callTagsToAdd (s l : Option ℚ) (ps : List String)
    (hb : strIncludes (jsToLower (" ".intercalate ps)) "timeline" = true ∨
      strIncludes (jsToLower (" ".intercalate ps)) "deadline" = true ∨
      strIncludes (jsToLower (" ".intercalate ps)) "urgent" = true) :
    "urgent-timeline" ∈ callTagsToAdd s l (some ps) := by
  have hps : ps.length > 0 := by
    cases ps with
    | nil => rcases hb with hb | hb | hb <;> exact absurd hb (by decide)
    | cons a as => simp
  have hcond : (strIncludes (jsToLower (" ".intercalate ps)) "timeline" ||
      strIncludes (jsToLower (" ".intercalate ps)) "deadline" ||
      strIncludes (jsToLower (" ".intercalate ps)) "urgent") = true := by
    rcases hb with hb | hb | hb <;> simp [hb]
  simp only [callTagsToAdd]
  rw [if_pos hps, if_pos hcond]
  simp

/-- C5: the step-4 tag update of the rule engine — sentiment ≥ 8 adds
`engaged` and removes `at-risk`; sentiment ≤ 3 adds `at-risk` and
removes `engaged`; likelihoodToClose ≥ 75 adds `high-priority`;
pain-point text matched case-insensitively as substrings adds the three
keyword-family tags; adding a present tag and removing an absent tag are
no-ops. -/
theorem addCall_tag_rules (tags : List String) (hnd : tags.Nodup)
    (sScore lFromCall : Option ℚ) (pts : Option (List String)) :
    (∀ sc : ℚ, sScore = some sc → 8 ≤ sc →
      "engaged" ∈ applyTagChanges tags (callTagsToAdd sScore lFromCall pts)
          (callTagsToRemove sScore) ∧
      "at-risk" ∉ applyTagChanges tags (callTagsToAdd sScore lFromCall pts)
          (callTagsToRemove sScore))
    ∧ (∀ sc : ℚ, sScore = some sc → sc ≤ 3 →
      "at-risk" ∈ applyTagChanges tags (callTagsToAdd sScore lFromCall pts)
          (callTagsToRemove sScore) ∧
      "engaged" ∉ applyTagChanges tags (callTagsToAdd sScore lFromCall pts)
          (callTagsToRemove sScore))
    ∧ (∀ l : ℚ, lFromCall = some l → 75 ≤ l →
      "high-priority" ∈ applyTagChanges tags
        (callTagsToAdd sScore lFromCall pts) (callTagsToRemove sScore))
    ∧ (∀ ps : List String, pts = some ps →
      (strIncludes (jsToLower (" ".intercalate ps)) "budget" = true ∨
       strIncludes (jsToLower (" ".intercalate ps)) "price" = true ∨
       strIncludes (jsToLower (" ".intercalate ps)) "cost" = true) →
      "budget-concern" ∈ applyTagChanges tags
        (callTagsToAdd sScore lFromCall pts) (callTagsToRemove sScore))
    ∧ (∀ ps : List String, pts = some ps →
      (strIncludes (jsToLower (" ".intercalate ps)) "compliance" = true ∨
       strIncludes (jsToLower (" ".intercalate ps)) "security" = true ∨
       strIncludes (jsToLower (" ".intercalate ps)) "legal" = true) →
      "compliance-blocker" ∈ applyTagChanges tags
        (callTagsToAdd sScore lFromCall pts) (callTagsToRemove sScore))
    ∧ (∀ ps : List String, pts = some ps →
      (strIncludes (jsToLower (" ".intercalate ps)) "timeline" = true ∨
       strIncludes (jsToLower (" ".intercalate ps)) "deadline" = true ∨
       strIncludes (jsToLower (" ".intercalate ps)) "urgent" = true) →
      "urgent-timeline" ∈ applyTagChanges tags
        (callTagsToAdd sScore lFromCall pts) (callTagsToRemove sScore))
    ∧ (∀ t, t ∈ tags → addTag tags t = tags)
    ∧ (∀ t, t ∉ tags → removeTag tags t = tags) := by
  have hcnt : ∀ x, tags.count x ≤ 1 :=
    fun x => List.nodup_iff_count_le_one.mp hnd x
  refine ⟨?_, ?_, ?_, ?_, ?_, ?_,
    fun t ht => addTag_of_mem tags t ht,
    fun t ht => removeTag_of_not_mem tags t ht⟩
  · rintro sc rfl h8
    have hrm := callTagsToRemove_of_ge sc h8
    constructor
    · rw [mem_applyTagChanges_iff _ _ _ _ (by rw [hrm]; decide)]
      exact Or.inr (engaged_mem_callTagsToAdd sc lFromCall pts h8)
    · unfold applyTagChanges
      rw [hrm]
      simp only [List.foldl_cons, List.foldl_nil]
      apply not_mem_removeTag_self
      rw [count_foldl_addTag_ne _ _ _
        (atRisk_not_mem_callTagsToAdd sc lFromCall pts h8)]
      exact hcnt _
  · rintro sc rfl h3
    have hn8 : ¬ (8 : ℚ) ≤ sc := fun h8 =>
      absurd (le_trans h8 h3) (by norm_num)
    have hrm := callTagsToRemove_of_le sc h3 hn8
    constructor
    · rw [mem_applyTagChanges_iff _ _ _ _ (by rw [hrm]; decide)]
      exact Or.inr (atRisk_mem_callTagsToAdd sc lFromCall pts h3 hn8)
    · unfold applyTagChanges
      rw [hrm]
      simp only [List.foldl_cons, List.foldl_nil]
      apply not_mem_removeTag_self
      rw [count_foldl_addTag_ne _ _ _
        (engaged_not_mem_callTagsToAdd sc lFromCall pts h3 hn8)]
      exact hcnt _
  · rintro lv rfl h75
    rw [mem_applyTagChanges_iff _ _ _ _ (fun t ht => by
      rcases mem_callTagsToRemove _ _ ht with rfl | rfl <;> decide)]
    exact Or.inr (highPriority_mem_callTagsToAdd sScore lv pts h75)
  · rintro ps rfl hb
    rw [mem_applyTagChanges_iff _ _ _ _ (fun t ht => by
      rcases mem_callTagsToRemove _ _ ht with rfl | rfl <;> decide)]
    exact Or.inr (budgetConcern_mem_callTagsToAdd sScore lFromCall ps hb)
  · rintro ps rfl hb
    rw [mem_applyTagChanges_iff _ _ _ _ (fun t ht => by
      rcases mem_callTagsToRemove _ _ ht with rfl | rfl <;> decide)]
    exact Or.inr (complianceBlocker_mem_callTagsToAdd sScore lFromCall ps hb)
  · rintro ps rfl hb
    rw [mem_applyTagChanges_iff _ _ _ _ (fun t ht => by
      rcases mem_callTagsToRemove _ _ ht with rfl | rfl <;> decide)]
    exact Or.inr (urgentTimeline_mem_callTagsToAdd sScore lFromCall ps hb)

/-- Witness for C5: sentiment 9, likelihood-to-close 80 and pain points
mentioning budget and deadline on a nodup tag list containing `at-risk`:
`engaged`, `high-priority`, `budget-concern`, `urgent-timeline` end up
present and `at-risk` is removed. -/
theorem addCall_tag_rules_witness :
    ("engaged" ∈ applyTagChanges ["at-risk", "inbound"]
        (callTagsToAdd (some 9) (some 80)
          (some ["budget is tight", "tight deadline"]))
        (callTagsToRemove (some 9)))
    ∧ ("at-risk" ∉ applyTagChanges ["at-risk", "inbound"]
        (callTagsToAdd (some 9) (some 80)
          (some ["budget is tight", "tight deadline"]))
        (callTagsToRemove (some 9)))
    ∧ ("high-priority" ∈ applyTagChanges ["at-risk", "inbound"]
        (callTagsToAdd (some 9) (some 80)
          (some ["budget is tight", "tight deadline"]))
        (callTagsToRemove (some 9)))
    ∧ ("budget-concern" ∈ applyTagChanges ["at-risk", "inbound"]
        (callTagsToAdd (some 9) (some 80)
          (some ["budget is tight", "tight deadline"]))
        (callTagsToRemove (some 9)))
    ∧ ("urgent-timeline" ∈ applyTagChanges ["at-risk", "inbound"]
        (callTagsToAdd (some 9) (some 80)
          (some ["budget is tight", "tight deadline"]))
        (callTagsToRemove (some 9))) := by
  have h := addCall_tag_rules ["at-risk", "inbound"] (by decide) (some 9)
    (some 80) (some ["budget is tight", "tight deadline"])
  exact ⟨(h.1 9 rfl (by norm_num)).1, (h.1 9 rfl (by norm_num)).2,
    h.2.2.1 80 rfl (by norm_num),
    h.2.2.2.1 _ rfl (Or.inl (by decide)),
    h.2.2.2.2.2.1 _ rfl (Or.inr (Or.inl (by decide)))⟩

/-! ## C8 — same-stage update is a no-op -/

/-- C8: calling `updateAccountStage` with the stage the account already
has returns the store unchanged — the account keeps every field and no
Activity is appended. -/
theorem updateAccountStage_same_noop (s : StoreData) (id : String)
    (now : String) (acct : Account)
    (hfind : getAccount s id = some acct) :
    updateAccountStage s id acct.stage now = s := by
  unfold updateAccountStage
  rw [hfind]
  simp

/-- Witness for C8 on the sample store. -/
theorem updateAccountStage_same_noop_witness :
    updateAccountStage exStore "acc-1" Stage.proposal "t9" = exStore :=
  updateAccountStage_same_noop exStore "acc-1" "t9" exAccount rfl

/-! ## C9 — flagAccountRisk: idempotent tag, accumulated notes -/

theorem flagRiskAcct_count (r : String) (a : Account)
    (h : a.tags.count "at-risk" ≤ 1) :
    (flagRiskAcct r a).tags.count "at-risk" = 1 := by
  rw [flagRiskAcct_tags]
  by_cases hc : a.tags.contains "at-risk" = true
  · rw [if_pos hc]
    have hm : "at-risk" ∈ a.tags := by simpa using hc
    have : 0 < a.tags.count "at-risk" := List.count_pos_iff_mem.mpr hm
    omega
  · rw [if_neg hc]
    have hz : a.tags.count "at-risk" = 0 :=
      List.count_eq_zero.mpr (by simpa using hc)
    simp [List.count_append, hz]

theorem getAccount_foldl_flagAccountRisk (rs : List String) (s : StoreData)
    (id now : String) :
    getAccount (rs.foldl (fun st r => flagAccountRisk st id r now) s) id =
      (getAccount s id).map
        (fun a => rs.foldl (fun a r => flagRiskAcct r a) a) := by
  induction rs generalizing s with
  | nil => simp
  | cons r rest ih =>
    simp only [List.foldl_cons]
    rw [ih, getAccount_flagAccountRisk]
    cases getAccount s id <;> rfl

theorem foldl_flagRiskAcct_count (rs : List String) (a : Account)
    (h : a.tags.count "at-risk" ≤ 1) (hne : rs ≠ []) :
    (rs.foldl (fun a r => flagRiskAcct r a) a).tags.count "at-risk" = 1 := by
  induction rs generalizing a with
  | nil => exact absurd rfl hne
  | cons r rest ih =>
    simp only [List.foldl_cons]
    by_cases hrest : rest = []
    · subst hrest
      simpa using flagRiskAcct_count r a h
    · exact ih (flagRiskAcct r a) (le_of_eq (flagRiskAcct_count r a h)) hrest

theorem foldl_flagRiskAcct_notes (rs : List String) (a : Account) :
    (rs.foldl (fun a r => flagRiskAcct r a) a).notes =
      a.notes ++ rs.map (fun r => "⚠️ AT-RISK: " ++ r) := by
  induction rs generalizing a with
  | nil => simp
  | cons r rest ih =>
    simp [List.foldl_cons, ih, flagRiskAcct_notes]

/-- C9: any non-empty sequence of `flagAccountRisk` calls on an account
whose `at-risk` tag occurs at most once leaves the tag present exactly
once and appends one explanatory note per call (notes are not
deduplicated). -/
theorem flagAccountRisk_idempotent (s : StoreData) (id now : String)
    (acct : Account) (rs : List String)
    (hfind : getAccount s id = some acct)
    (hcount : acct.tags.count "at-risk" ≤ 1) (hne : rs ≠ []) :
    ((getAccount (rs.foldl (fun st r => flagAccountRisk st id r now) s)
        id).map (fun a => a.tags.count "at-risk") = some 1)
    ∧ ((getAccount (rs.foldl (fun st r => flagAccountRisk st id r now) s)
        id).map (fun a => a.notes) =
      some (acct.notes ++ rs.map (fun r => "⚠️ AT-RISK: " ++ r))) := by
  rw [getAccount_foldl_flagAccountRisk, hfind]
  constructor
  · simp only [Option.map_some']
    rw [foldl_flagRiskAcct_count rs acct hcount hne]
  · simp only [Option.map_some']
    rw [foldl_flagRiskAcct_notes rs acct]

/-- An account already flagged at risk, with no notes yet. -/
def exAccount9 : Account :=
  { exAccount with id := "acc-9", tags := ["at-risk"], notes := [] }

/-- A store holding just `exAccount9`. -/
def exStore9 : StoreData :=
  { accounts := [exAccount9], callRecords := [], activities := [],
    counter := 0 }

/-- Witness for C9: two successive flags with different reasons on an
account that already has the tag — the tag stays present exactly once
and exactly the two notes are appended. -/
theorem flagAccountRisk_idempotent_witness :
    ((getAccount (["reason A", "reason B"].foldl
        (fun st r => flagAccountRisk st "acc-9" r "t0") exStore9)
        "acc-9").map (fun a => a.tags.count "at-risk") = some 1)
    ∧ ((getAccount (["reason A", "reason B"].foldl
        (fun st r => flagAccountRisk st "acc-9" r "t0") exStore9)
        "acc-9").map (fun a => a.notes) =
      some ["⚠️ AT-RISK: reason A", "⚠️ AT-RISK: reason B"]) := by
  have h := flagAccountRisk_idempotent exStore9 "acc-9" "t0" exAccount9
    ["reason A", "reason B"] rfl (by decide) (by decide)
  exact ⟨h.1, by simpa using h.2⟩

/-! ## C6 — terminal stages are immutable to the rule engine -/

/-- C6: on an account in `closed_won` or `closed_lost`, `addCall` only
records the call: the resulting store is exactly the `addCallRecord`
store, the account keeps its stage, likelihood, tags, notes and
follow-up (only `lastContactDate` moves), and exactly one CallRecord and
one Activity are appended. -/
theorem addCall_terminal_immutable (s : StoreData) (body : AddCallBody)
    (now fu2 fu5 : String) (acct : Account)
    (hfind : getAccount s body.accountId = some acct)
    (hterm : acct.stage = .closed_won ∨ acct.stage = .closed_lost) :
    ((addCall s body now fu2 fu5).1 =
      (addCallRecord s body.accountId (addCallNewRecord body now)).1)
    ∧ ((getAccount (addCall s body now fu2 fu5).1 body.accountId).map
        (fun a => (a.stage, a.likelihood, a.tags, a.notes, a.nextFollowUp)) =
      some (acct.stage, acct.likelihood, acct.tags, acct.notes,
        acct.nextFollowUp))
    ∧ ((getAccount (addCall s body now fu2 fu5).1 body.accountId).map
        (fun a => a.lastContactDate) = some (body.date.getD now))
    ∧ ((addCall s body now fu2 fu5).1.callRecords =
        s.callRecords ++ [(addCall s body now fu2 fu5).2])
    ∧ ((addCall s body now fu2 fu5).1.activities.length =
        s.activities.length + 1) := by
  have h1 : getAccount (addCallRecord s body.accountId
      (addCallNewRecord body now)).1 body.accountId =
      some { acct with lastContactDate := (addCallNewRecord body now).date } := by
    rw [getAccount_addCallRecord, hfind]
    rfl
  have hstate : (addCall s body now fu2 fu5).1 =
      (addCallRecord s body.accountId (addCallNewRecord body now)).1 := by
    show runRuleEngine body now fu2 fu5
        (addCallRecord s body.accountId (addCallNewRecord body now)).1 = _
    unfold runRuleEngine
    rw [h1]
    simp only []
    rw [if_pos hterm]
  refine ⟨hstate, ?_, ?_, ?_, ?_⟩
  · rw [hstate, h1]
    rfl
  · rw [hstate, h1]
    rfl
  · rw [hstate]
    rfl
  · rw [hstate]
    simp [addCallRecord, pushActivity, modifyAccount]

/-- A closed_won account. -/
def exAccountWon : Account :=
  { exAccount with id := "acc-w", stage := .closed_won, likelihood := 100 }

/-- A store holding just `exAccountWon`. -/
def exStoreWon : StoreData :=
  { accounts := [exAccountWon], callRecords := [], activities := [],
    counter := 0 }

/-- The negative-call body addressed to the closed_won account. -/
def exBodyWon : AddCallBody := { exBody1 with accountId := "acc-w" }

/-- Witness for C6: even a very negative analysed call leaves the
closed_won account's stage, likelihood, tags, notes and follow-up
untouched. -/
theorem addCall_terminal_immutable_witness :
    (getAccount (addCall exStoreWon exBodyWon "t1" "f2" "f5").1
        "acc-w").map
      (fun a => (a.stage, a.likelihood, a.tags, a.notes, a.nextFollowUp)) =
    some (Stage.closed_won, 100, ["enterprise"], [], some "d2") :=
  (addCall_terminal_immutable exStoreWon exBodyWon "t1" "f2" "f5"
    exAccountWon rfl (Or.inl rfl)).2.1

/-! ## C3 — no-signal calls (corrected) -/

theorem updateFirst_congr_id {α : Type} (p : α → Bool) (f : α → α)
    (hf : ∀ x, f x = x) (l : List α) : updateFirst p f l = l := by
  induction l with
  | nil => rfl
  | cons x xs ih =>
    unfold updateFirst
    split <;> simp [hf, ih]

theorem modifyAccount_congr_id (s : StoreData) (id : String)
    (f : Account → Account) (hf : ∀ a, f a = a) :
    modifyAccount s id f = s := by
  unfold modifyAccount
  rw [updateFirst_congr_id _ _ hf]

theorem addCallStep1_none (body : AddCallBody) (acct : Account)
    (s : StoreData) (hb : likelihoodFromCallOf body = none) :
    addCallStep1 body acct s = s := by
  simp [addCallStep1, hb]

theorem addCallStep2_none (body : AddCallBody) (acct : Account)
    (now : String) (s : StoreData) (hb : sentimentScoreOf body = none) :
    addCallStep2 body acct now s = s := by
  simp [addCallStep2, hb]

theorem addCallStep3_none (body : AddCallBody) (acct : Account)
    (now : String) (s : StoreData) (hana : body.analysis = none)
    (hout : body.outcome = none) :
    addCallStep3 body acct now s = s := by
  simp [addCallStep3, hana, hout]

theorem addCallStep4_noop (body : AddCallBody) (acct : Account)
    (s : StoreData) (hb1 : likelihoodFromCallOf body = none)
    (hb2 : sentimentScoreOf body = none) (hana : body.analysis = none) :
    addCallStep4 body acct s = s := by
  unfold addCallStep4
  refine modifyAccount_congr_id _ _ _ (fun a => ?_)
  have hct : callTagChanges body a.tags = a.tags := by
    simp [callTagChanges, hb1, hb2, hana, callTagsToAdd, callTagsToRemove,
      applyTagChanges]
  rw [hct]

theorem addCallStep5_none (body : AddCallBody) (acct : Account)
    (fu2 fu5 : String) (s : StoreData) (hana : body.analysis = none) :
    addCallStep5 body acct fu2 fu5 s = s := by
  simp [addCallStep5, hana]

theorem addCallStep6_noop (body : AddCallBody) (acct : Account)
    (now : String) (s : StoreData) (a : Account)
    (hget : getAccount s body.accountId = some a)
    (hcond : ¬ (a.likelihood < 30 ∧ ¬ (a.tags.contains "at-risk" = true))) :
    addCallStep6 body acct now s = s := by
  unfold addCallStep6
  rw [hget]
  simp only []
  rw [if_neg hcond]

/-- C3 amended: a no-signal `addCall` (null analysis, no embedded
sentiment score, and no `outcome` text) on a non-terminal account whose
likelihood is at least 30 — or which already carries the `at-risk`
tag — leaves the account's stage, likelihood, tags, notes and follow-up
unchanged; only the CallRecord, the call Activity and `lastContactDate`
are written.  (As stated, the claim is false: the step-6 risk check and
the step-3 outcome fallback run even with no analysis; see the
counterexample.) -/
theorem addCall_no_signal_noop (s : StoreData) (body : AddCallBody)
    (now fu2 fu5 : String) (acct : Account)
    (hfind : getAccount s body.accountId = some acct)
    (hterm : ¬ (acct.stage = .closed_won ∨ acct.stage = .closed_lost))
    (hana : body.analysis = none) (hsent : body.sentiment = none)
    (hout : body.outcome = none)
    (hrisk : 30 ≤ acct.likelihood ∨ acct.tags.contains "at-risk" = true) :
    ((addCall s body now fu2 fu5).1 =
      (addCallRecord s body.accountId (addCallNewRecord body now)).1)
    ∧ ((getAccount (addCall s body now fu2 fu5).1 body.accountId).map
        (fun a => (a.stage, a.likelihood, a.tags, a.notes, a.nextFollowUp)) =
      some (acct.stage, acct.likelihood, acct.tags, acct.notes,
        acct.nextFollowUp))
    ∧ ((addCall s body now fu2 fu5).1.callRecords =
        s.callRecords ++ [(addCall s body now fu2 fu5).2])
    ∧ ((addCall s body now fu2 fu5).1.activities.length =
        s.activities.length + 1) := by
  have hb1 : likelihoodFromCallOf body = none := by
    simp [likelihoodFromCallOf, hana]
  have hb2 : sentimentScoreOf body = none := by
    simp [sentimentScoreOf, hana, hsent]
  have h1 : getAccount (addCallRecord s body.accountId
      (addCallNewRecord body now)).1 body.accountId =
      some { acct with lastContactDate := (addCallNewRecord body now).date } := by
    rw [getAccount_addCallRecord, hfind]
    rfl
  have hcond : ¬ (({ acct with
        lastContactDate := (addCallNewRecord body now).date } : Account).likelihood < 30
      ∧ ¬ (({ acct with
        lastContactDate := (addCallNewRecord body now).date } : Account).tags.contains
          "at-risk" = true)) := by
    rcases hrisk with hr | hr
    · exact fun hc => absurd hc.1 (not_lt.mpr hr)
    · exact fun hc => hc.2 hr
  have hstate : (addCall s body now fu2 fu5).1 =
      (addCallRecord s body.accountId (addCallNewRecord body now)).1 := by
    show runRuleEngine body now fu2 fu5
        (addCallRecord s body.accountId (addCallNewRecord body now)).1 = _
    unfold runRuleEngine
    rw [h1]
    simp only []
    rw [if_neg hterm]
    rw [addCallStep1_none body _ _ hb1]
    rw [addCallStep2_none body _ now _ hb2]
    rw [addCallStep3_none body _ now _ hana hout]
    rw [addCallStep4_noop body _ _ hb1 hb2 hana]
    rw [addCallStep5_none body _ fu2 fu5 _ hana]
    exact addCallStep6_noop body _ now _ _ h1 hcond
  refine ⟨hstate, ?_, ?_, ?_⟩
  · rw [hstate, h1]
    rfl
  · rw [hstate]
    rfl
  · rw [hstate]
    simp [addCallRecord, pushActivity, modifyAccount]

/-- A fresh-lead-like account: likelihood 25, no `at-risk` tag. -/
def exAccount3a : Account :=
  { exAccount with
    id := "acc-3a"
    stage := .lead
    likelihood := 25
    tags := ["inbound"]
    notes := [] }

/-- A store holding just `exAccount3a`. -/
def exStore3a : StoreData :=
  { accounts := [exAccount3a], callRecords := [], activities := [],
    counter := 0 }

/-- A request with no analysis, no sentiment and no outcome. -/
def exBody3a : AddCallBody :=
  { accountId := "acc-3a", date := some "d1", duration := some 0,
    transcript := some "", sentiment := none, outcome := none,
    analysis := none }

/-- A healthy account (likelihood 62, no `at-risk`), empty notes. -/
def exAccount3b : Account :=
  { exAccount with
    id := "acc-3b"
    likelihood := 62
    tags := []
    notes := [] }

/-- A store holding just `exAccount3b`. -/
def exStore3b : StoreData :=
  { accounts := [exAccount3b], callRecords := [], activities := [],
    counter := 0 }

/-- A request with no analysis and no sentiment but an outcome text. -/
def exBody3b : AddCallBody :=
  { accountId := "acc-3b", date := some "d1", duration := some 0,
    transcript := some "", sentiment := none,
    outcome := some "Call went fine", analysis := none }

/-- C3 counterexample: with a null analysis and absent sentiment score,
(1) on a likelihood-25 account without the `at-risk` tag the final risk
check still fires — the tag and a risk note are added — and (2) when the
request carries an `outcome` text the step-3 fallback appends a summary
note, so the account is NOT untouched by steps 1-6. -/
theorem addCall_no_signal_counterexample :
    ((getAccount (addCall exStore3a exBody3a "t" "f2" "f5").1
        "acc-3a").map (fun a => a.tags) = some ["inbound", "at-risk"])
    ∧ ((getAccount (addCall exStore3a exBody3a "t" "f2" "f5").1
        "acc-3a").map (fun a => a.notes) =
      some ["⚠️ AT-RISK: Likelihood dropped to 25% after call"])
    ∧ ((getAccount (addCall exStore3b exBody3b "t" "f2" "f5").1
        "acc-3b").map (fun a => a.notes) =
      some ["📞 Call summary: Call went fine"]) := by
  refine ⟨?_, ?_, ?_⟩ <;> decide

/-- An all-absent request addressed to the healthy account. -/
def exBody3n : AddCallBody :=
  { accountId := "acc-3b", date := some "d1", duration := some 0,
    transcript := some "", sentiment := none, outcome := none,
    analysis := none }

/-- Witness for the amended C3 theorem: a fully signal-free call on the
likelihood-62 account only records the call. -/
theorem addCall_no_signal_noop_witness :
    (getAccount (addCall exStore3b exBody3n "t" "f2" "f5").1
        "acc-3b").map
      (fun a => (a.stage, a.likelihood, a.tags, a.notes, a.nextFollowUp)) =
    some (Stage.proposal, 62, [], [], some "d2") :=
  (addCall_no_signal_noop exStore3b exBody3n "t" "f2" "f5" exAccount3b
    rfl (by decide) rfl rfl rfl (Or.inl (by decide))).2.1

/-! ## C7 — likelihood range invariant -/

/-- Every account's likelihood lies in [0, 100] (it is an `ℤ` by the
data model, so integrality is intrinsic). -/
def likelihoodInv (s : StoreData) : Prop :=
  ∀ a ∈ s.accounts, 0 ≤ a.likelihood ∧ a.likelihood ≤ 100

theorem mem_updateFirst {α : Type} (p : α → Bool) (f : α → α) (l : List α)
    (x : α) (hx : x ∈ updateFirst p f l) : x ∈ l ∨ ∃ y ∈ l, x = f y := by
  induction l with
  | nil => simp [updateFirst] at hx
  | cons z zs ih =>
    unfold updateFirst at hx
    by_cases hz : p z = true
    · rw [if_pos hz] at hx
      rcases List.mem_cons.mp hx with rfl | hmem
      · exact Or.inr ⟨z, List.mem_cons_self _ _, rfl⟩
      · exact Or.inl (List.mem_cons_of_mem _ hmem)
    · rw [if_neg hz] at hx
      rcases List.mem_cons.mp hx with rfl | hmem
      · exact Or.inl (List.mem_cons_self _ _)
      · rcases ih hmem with h | ⟨y, hy, rfl⟩
        · exact Or.inl (List.mem_cons_of_mem _ h)
        · exact Or.inr ⟨y, List.mem_cons_of_mem _ hy, rfl⟩

theorem likelihoodInv_modifyAccount (s : StoreData) (id : String)
    (f : Account → Account)
    (hf : ∀ a, 0 ≤ a.likelihood ∧ a.likelihood ≤ 100 →
      0 ≤ (f a).likelihood ∧ (f a).likelihood ≤ 100)
    (hs : likelihoodInv s) : likelihoodInv (modifyAccount s id f) := by
  intro a ha
  rcases mem_updateFirst _ _ _ _ ha with h | ⟨y, hy, rfl⟩
  · exact hs a h
  · exact hf y (hs y hy)

theorem likelihoodInv_updateAccountLikelihood (s : StoreData) (id : String)
    (x : ℤ) (hs : likelihoodInv s) :
    likelihoodInv (updateAccountLikelihood s id x) := by
  unfold updateAccountLikelihood
  split
  · exact hs
  · refine likelihoodInv_modifyAccount _ _ _ (fun a ha => ?_) hs
    show 0 ≤ jsMax 0 (jsMin 100 x) ∧ jsMax 0 (jsMin 100 x) ≤ 100
    unfold jsMax jsMin
    constructor <;> split_ifs <;> omega

theorem likelihoodInv_updateAccountStage (s : StoreData) (id : String)
    (st : Stage) (now : String) (hs : likelihoodInv s) :
    likelihoodInv (updateAccountStage s id st now) := by
  unfold updateAccountStage
  split
  · exact hs
  · split
    · exact hs
    · exact likelihoodInv_modifyAccount _ _ _ (fun a ha => ha) hs

theorem likelihoodInv_addNoteToAccount (s : StoreData) (id note now : String)
    (hs : likelihoodInv s) : likelihoodInv (addNoteToAccount s id note now) := by
  unfold addNoteToAccount
  split
  · exact hs
  · exact likelihoodInv_modifyAccount _ _ _ (fun a ha => ha) hs

theorem likelihoodInv_flagAccountRisk (s : StoreData) (id r now : String)
    (hs : likelihoodInv s) : likelihoodInv (flagAccountRisk s id r now) := by
  unfold flagAccountRisk
  split
  · exact hs
  · apply likelihoodInv_addNoteToAccount
    split
    · exact hs
    · exact likelihoodInv_modifyAccount _ _ _ (fun a ha => ha) hs

theorem likelihoodInv_addCallRecord (s : StoreData) (aid : String)
    (rec : NewCallRecord) (hs : likelihoodInv s) :
    likelihoodInv (addCallRecord s aid rec).1 := by
  unfold addCallRecord
  exact likelihoodInv_modifyAccount _ _ _ (fun a ha => ha) hs

theorem likelihoodInv_createAccount (s : StoreData) (d : NewAccountData)
    (now fu : String) (hs : likelihoodInv s) :
    likelihoodInv (createAccount s d now fu).1 := by
  unfold createAccount
  intro a ha
  rcases List.mem_append.mp ha with h | h
  · exact hs a h
  · rcases List.mem_singleton.mp h with rfl
    exact show (0 : ℤ) ≤ 25 ∧ (25 : ℤ) ≤ 100 by norm_num

theorem likelihoodInv_addCallStep1 (body : AddCallBody) (acct : Account)
    (s : StoreData) (hs : likelihoodInv s) :
    likelihoodInv (addCallStep1 body acct s) := by
  unfold addCallStep1
  split
  · exact likelihoodInv_updateAccountLikelihood _ _ _ hs
  · exact hs

theorem likelihoodInv_addCallStep2a (sc : ℚ) (acct : Account) (now : String)
    (s : StoreData) (hs : likelihoodInv s) :
    likelihoodInv (addCallStep2a sc acct now s) := by
  unfold addCallStep2a
  split
  · split
    · exact likelihoodInv_updateAccountStage _ _ _ _ hs
    · exact hs
  · exact hs

theorem likelihoodInv_addCallStep2b (sc : ℚ) (body : AddCallBody)
    (acct : Account) (now : String) (s : StoreData) (hs : likelihoodInv s) :
    likelihoodInv (addCallStep2b sc body acct now s) := by
  unfold addCallStep2b
  split
  · exact likelihoodInv_flagAccountRisk _ _ _ _ hs
  · exact hs

theorem likelihoodInv_addCallStep2c (sc : ℚ) (acct : Account) (now : String)
    (s : StoreData) (hs : likelihoodInv s) :
    likelihoodInv (addCallStep2c sc acct now s) := by
  unfold addCallStep2c
  split
  · split
    · exact likelihoodInv_updateAccountStage _ _ _ _ hs
    · exact hs
  · exact hs

theorem likelihoodInv_addCallStep2 (body : AddCallBody) (acct : Account)
    (now : String) (s : StoreData) (hs : likelihoodInv s) :
    likelihoodInv (addCallStep2 body acct now s) := by
  unfold addCallStep2
  split
  · split
    · exact likelihoodInv_addCallStep2c _ _ _ _
        (likelihoodInv_addCallStep2b _ _ _ _ _
          (likelihoodInv_addCallStep2a _ _ _ _ hs))
    · exact hs
  · exact hs

theorem likelihoodInv_addCallStep3 (body : AddCallBody) (acct : Account)
    (now : String) (s : StoreData) (hs : likelihoodInv s) :
    likelihoodInv (addCallStep3 body acct now s) := by
  unfold addCallStep3
  split
  · split
    · exact likelihoodInv_addNoteToAccount _ _ _ _ hs
    · exact hs
  · exact hs

theorem likelihoodInv_addCallStep4 (body : AddCallBody) (acct : Account)
    (s : StoreData) (hs : likelihoodInv s) :
    likelihoodInv (addCallStep4 body acct s) := by
  unfold addCallStep4
  exact likelihoodInv_modifyAccount _ _ _ (fun a ha => ha) hs

theorem likelihoodInv_addCallStep5 (body : AddCallBody) (acct : Account)
    (fu2 fu5 : String) (s : StoreData) (hs : likelihoodInv s) :
    likelihoodInv (addCallStep5 body acct fu2 fu5 s) := by
  unfold addCallStep5
  split
  · split
    · exact likelihoodInv_modifyAccount _ _ _ (fun a ha => ha) hs
    · exact hs
  · exact hs

theorem likelihoodInv_addCallStep6 (body : AddCallBody) (acct : Account)
    (now : String) (s : StoreData) (hs : likelihoodInv s) :
    likelihoodInv (addCallStep6 body acct now s) := by
  unfold addCallStep6
  split
  · split
    · exact likelihoodInv_flagAccountRisk _ _ _ _ hs
    · exact hs
  · exact hs

theorem likelihoodInv_runRuleEngine (body : AddCallBody)
    (now fu2 fu5 : String) (s : StoreData) (hs : likelihoodInv s) :
    likelihoodInv (runRuleEngine body now fu2 fu5 s) := by
  unfold runRuleEngine
  split
  · exact hs
  · split
    · exact hs
    · exact likelihoodInv_addCallStep6 _ _ _ _
        (likelihoodInv_addCallStep5 _ _ _ _ _
          (likelihoodInv_addCallStep4 _ _ _
            (likelihoodInv_addCallStep3 _ _ _ _
              (likelihoodInv_addCallStep2 _ _ _ _
                (likelihoodInv_addCallStep1 _ _ _ hs)))))

theorem likelihoodInv_addCall (s : StoreData) (body : AddCallBody)
    (now fu2 fu5 : String) (hs : likelihoodInv s) :
    likelihoodInv (addCall s body now fu2 fu5).1 :=
  likelihoodInv_runRuleEngine _ _ _ _ _
    (likelihoodInv_addCallRecord _ _ _ hs)

/-- The store mutations the C7 claim quantifies over. -/
inductive StoreOp where
| opUpdateLikelihood : String → ℤ → StoreOp
| opAddCall : AddCallBody → String → String → String → StoreOp
| opCreateAccount : NewAccountData → String → String → StoreOp
| opUpdateStage : String → Stage → String → StoreOp
| opAddNote : String → String → String → StoreOp
| opFlagRisk : String → String → String → StoreOp

/-- Dispatch one store mutation. -/
def applyOp (s : StoreData) : StoreOp → StoreData
| .opUpdateLikelihood id x => updateAccountLikelihood s id x
| .opAddCall body now fu2 fu5 => (addCall s body now fu2 fu5).1
| .opCreateAccount d now fu => (createAccount s d now fu).1
| .opUpdateStage id st now => updateAccountStage s id st now
| .opAddNote id note now => addNoteToAccount s id note now
| .opFlagRisk id r now => flagAccountRisk s id r now

/-- C7: from any store satisfying the likelihood range invariant, any
sequence of store mutations (updateAccountLikelihood with any integer,
the addCall likelihood blend, createAccount, updateAccountStage,
addNoteToAccount, flagAccountRisk) keeps every account's likelihood an
integer in [0, 100]. -/
theorem likelihood_range_invariant (s : StoreData) (hs : likelihoodInv s)
    (ops : List StoreOp) : likelihoodInv (ops.foldl applyOp s) := by
  induction ops generalizing s with
  | nil => exact hs
  | cons op rest ih =>
    simp only [List.foldl_cons]
    refine ih _ ?_
    cases op with
    | opUpdateLikelihood id x =>
      exact likelihoodInv_updateAccountLikelihood _ _ _ hs
    | opAddCall body now fu2 fu5 => exact likelihoodInv_addCall _ _ _ _ _ hs
    | opCreateAccount d now fu => exact likelihoodInv_createAccount _ _ _ _ hs
    | opUpdateStage id st now => exact likelihoodInv_updateAccountStage _ _ _ _ hs
    | opAddNote id note now => exact likelihoodInv_addNoteToAccount _ _ _ _ hs
    | opFlagRisk id r now => exact likelihoodInv_flagAccountRisk _ _ _ _ hs

/-- Witness for C7: an out-of-range update (250), an analysed call and a
risk flag on the sample store keep all likelihoods in range. -/
theorem likelihood_range_invariant_witness :
    likelihoodInv ([StoreOp.opUpdateLikelihood "acc-1" 250,
      StoreOp.opAddCall exBody1 "t1" "f2" "f5",
      StoreOp.opFlagRisk "acc-1" "late reply" "t2"].foldl applyOp exStore) :=
  likelihood_range_invariant exStore (by unfold likelihoodInv; decide) _

/-! ## C10 — CallRecord foreign-key invariant -/

/-- Every CallRecord's `accountId` references an account in the store. -/
def fkInv (s : StoreData) : Prop :=
  ∀ c ∈ s.callRecords, ∃ a ∈ s.accounts, a.id = c.accountId

theorem exists_id_updateFirst (p : Account → Bool) (f : Account → Account)
    (hf : ∀ a, (f a).id = a.id) (l : List Account) (x : String)
    (h : ∃ a ∈ l, a.id = x) : ∃ a ∈ updateFirst p f l, a.id = x := by
  induction l with
  | nil => simpa using h
  | cons z zs ih =>
    rcases h with ⟨a, ha, hax⟩
    unfold updateFirst
    by_cases hz : p z = true
    · rw [if_pos hz]
      rcases List.mem_cons.mp ha with rfl | hmem
      · exact ⟨f a, List.mem_cons_self _ _, by rw [hf]; exact hax⟩
      · exact ⟨a, List.mem_cons_of_mem _ hmem, hax⟩
    · rw [if_neg hz]
      rcases List.mem_cons.mp ha with rfl | hmem
      · exact ⟨a, List.mem_cons_self _ _, hax⟩
      · rcases ih ⟨a, hmem, hax⟩ with ⟨b, hb, hbx⟩
        exact ⟨b, List.mem_cons_of_mem _ hb, hbx⟩

theorem fkInv_modifyAccount (s : StoreData) (id : String)
    (f : Account → Account) (hf : ∀ a, (f a).id = a.id) (hs : fkInv s) :
    fkInv (modifyAccount s id f) := by
  intro c hc
  exact exists_id_updateFirst _ _ hf _ _ (hs c hc)

theorem fkInv_updateAccountStage (s : StoreData) (id : String) (st : Stage)
    (now : String) (hs : fkInv s) : fkInv (updateAccountStage s id st now) := by
  unfold updateAccountStage
  split
  · exact hs
  · split
    · exact hs
    · refine fkInv_modifyAccount _ _ _ (fun a => ?_) hs
      rfl

theorem fkInv_updateAccountLikelihood (s : StoreData) (id : String) (x : ℤ)
    (hs : fkInv s) : fkInv (updateAccountLikelihood s id x) := by
  unfold updateAccountLikelihood
  split
  · exact hs
  · refine fkInv_modifyAccount _ _ _ (fun a => ?_) hs
    rfl

theorem fkInv_addNoteToAccount (s : StoreData) (id note now : String)
    (hs : fkInv s) : fkInv (addNoteToAccount s id note now) := by
  unfold addNoteToAccount
  split
  · exact hs
  · refine fkInv_modifyAccount _ _ _ (fun a => ?_) hs
    rfl

theorem fkInv_flagAccountRisk (s : StoreData) (id r now : String)
    (hs : fkInv s) : fkInv (flagAccountRisk s id r now) := by
  unfold flagAccountRisk
  split
  · exact hs
  · apply fkInv_addNoteToAccount
    split
    · exact hs
    · refine fkInv_modifyAccount _ _ _ (fun a => ?_) hs
      rfl

theorem fkInv_createAccount (s : StoreData) (d : NewAccountData)
    (now fu : String) (hs : fkInv s) : fkInv (createAccount s d now fu).1 := by
  unfold createAccount
  intro c hc
  rcases hs c hc with ⟨a, ha, hax⟩
  exact ⟨a, List.mem_append_left _ ha, hax⟩

theorem fkInv_addCallRecord (s : StoreData) (aid : String)
    (rec : NewCallRecord) (hs : fkInv s)
    (hex : ∃ a ∈ s.accounts, a.id = rec.accountId) :
    fkInv (addCallRecord s aid rec).1 := by
  unfold addCallRecord
  intro c hc
  rcases List.mem_append.mp hc with h | h
  · refine exists_id_updateFirst _ _ (fun a => ?_) _ _ (hs c h)
    rfl
  · rcases List.mem_singleton.mp h with rfl
    refine exists_id_updateFirst _ _ (fun a => ?_) _ _ hex
    rfl

theorem fkInv_addCallStep1 (body : AddCallBody) (acct : Account)
    (s : StoreData) (hs : fkInv s) : fkInv (addCallStep1 body acct s) := by
  unfold addCallStep1
  split
  · exact fkInv_updateAccountLikelihood _ _ _ hs
  · exact hs

theorem fkInv_addCallStep2a (sc : ℚ) (acct : Account) (now : String)
    (s : StoreData) (hs : fkInv s) : fkInv (addCallStep2a sc acct now s) := by
  unfold addCallStep2a
  split
  · split
    · exact fkInv_updateAccountStage _ _ _ _ hs
    · exact hs
  · exact hs

theorem fkInv_addCallStep2b (sc : ℚ) (body : AddCallBody) (acct : Account)
    (now : String) (s : StoreData) (hs : fkInv s) :
    fkInv (addCallStep2b sc body acct now s) := by
  unfold addCallStep2b
  split
  · exact fkInv_flagAccountRisk _ _ _ _ hs
  · exact hs

theorem fkInv_addCallStep2c (sc : ℚ) (acct : Account) (now : String)
    (s : StoreData) (hs : fkInv s) : fkInv (addCallStep2c sc acct now s) := by
  unfold addCallStep2c
  split
  · split
    · exact fkInv_updateAccountStage _ _ _ _ hs
    · exact hs
  · exact hs

theorem fkInv_addCallStep2 (body : AddCallBody) (acct : Account)
    (now : String) (s : StoreData) (hs : fkInv s) :
    fkInv (addCallStep2 body acct now s) := by
  unfold addCallStep2
  split
  · split
    · exact fkInv_addCallStep2c _ _ _ _
        (fkInv_addCallStep2b _ _ _ _ _ (fkInv_addCallStep2a _ _ _ _ hs))
    · exact hs
  · exact hs

theorem fkInv_addCallStep3 (body : AddCallBody) (acct : Account)
    (now : String) (s : StoreData) (hs : fkInv s) :
    fkInv (addCallStep3 body acct now s) := by
  unfold addCallStep3
  split
  · split
    · exact fkInv_addNoteToAccount _ _ _ _ hs
    · exact hs
  · exact hs

theorem fkInv_addCallStep4 (body : AddCallBody) (acct : Account)
    (s : StoreData) (hs : fkInv s) : fkInv (addCallStep4 body acct s) := by
  unfold addCallStep4
  refine fkInv_modifyAccount _ _ _ (fun a => ?_) hs
  rfl

theorem fkInv_addCallStep5 (body : AddCallBody) (acct : Account)
    (fu2 fu5 : String) (s : StoreData) (hs : fkInv s) :
    fkInv (addCallStep5 body acct fu2 fu5 s) := by
  unfold addCallStep5
  split
  · split
    · refine fkInv_modifyAccount _ _ _ (fun a => ?_) hs
      rfl
    · exact hs
  · exact hs

theorem fkInv_addCallStep6 (body : AddCallBody) (acct : Account)
    (now : String) (s : StoreData) (hs : fkInv s) :
    fkInv (addCallStep6 body acct now s) := by
  unfold addCallStep6
  split
  · split
    · exact fkInv_flagAccountRisk _ _ _ _ hs
    · exact hs
  · exact hs

theorem fkInv_runRuleEngine (body : AddCallBody) (now fu2 fu5 : String)
    (s : StoreData) (hs : fkInv s) :
    fkInv (runRuleEngine body now fu2 fu5 s) := by
  unfold runRuleEngine
  split
  · exact hs
  · split
    · exact hs
    · exact fkInv_addCallStep6 _ _ _ _
        (fkInv_addCallStep5 _ _ _ _ _
          (fkInv_addCallStep4 _ _ _
            (fkInv_addCallStep3 _ _ _ _
              (fkInv_addCallStep2 _ _ _ _ (fkInv_addCallStep1 _ _ _ hs)))))

/-- A CallRecord request referencing no existing account. -/
def exRecGhost : NewCallRecord :=
  { accountId := "ghost", date := "d9", duration := 0, transcript := "",
    sentiment := none, outcome := "left voicemail" }

/-- A CallRecord request referencing the sample account. -/
def exRecAcc1 : NewCallRecord :=
  { accountId := "acc-1", date := "d9", duration := 0, transcript := "",
    sentiment := none, outcome := "left voicemail" }

/-- The sample store after recording one call against `acc-1`. -/
def exStoreFk : StoreData := (addCallRecord exStore "acc-1" exRecAcc1).1

/-- C10 counterexample: `addCallRecord` pushes the record even when no
account matches, and `deleteAccount` leaves the account's call records
behind — both produce a CallRecord whose `accountId` matches no account. -/
theorem callRecord_fk_counterexample :
    fkInv exStore
    ∧ ¬ fkInv (addCallRecord exStore "ghost" exRecGhost).1
    ∧ fkInv exStoreFk
    ∧ ¬ fkInv (deleteAccount exStoreFk "acc-1").1 := by
  refine ⟨?_, ?_, ?_, ?_⟩ <;> unfold fkInv <;> decide

/-- C10 amended: the foreign-key invariant is preserved by
`createAccount`, by `addCallRecord` and the `addCall` route action when
the request's `accountId` is the id of an existing account, and by the
account-editing mutations; it is NOT preserved by `addCallRecord` with
an unknown id or by `deleteAccount` (see the counterexample). -/
theorem callRecord_fk_preservation :
    (∀ (s : StoreData) (d : NewAccountData) (now fu : String),
      fkInv s → fkInv (createAccount s d now fu).1)
    ∧ (∀ (s : StoreData) (aid : String) (rec : NewCallRecord),
      fkInv s → (∃ a ∈ s.accounts, a.id = rec.accountId) →
      fkInv (addCallRecord s aid rec).1)
    ∧ (∀ (s : StoreData) (body : AddCallBody) (now fu2 fu5 : String),
      fkInv s → (∃ a ∈ s.accounts, a.id = body.accountId) →
      fkInv (addCall s body now fu2 fu5).1)
    ∧ (∀ (s : StoreData) (id : String) (st : Stage) (now : String),
      fkInv s → fkInv (updateAccountStage s id st now))
    ∧ (∀ (s : StoreData) (id : String) (x : ℤ),
      fkInv s → fkInv (updateAccountLikelihood s id x))
    ∧ (∀ (s : StoreData) (id note now : String),
      fkInv s → fkInv (addNoteToAccount s id note now))
    ∧ (∀ (s : StoreData) (id r now : String),
      fkInv s → fkInv (flagAccountRisk s id r now)) := by
  refine ⟨fun s d now fu hs => fkInv_createAccount s d now fu hs,
    fun s aid rec hs hex => fkInv_addCallRecord s aid rec hs hex,
    fun s body now fu2 fu5 hs hex => ?_,
    fun s id st now hs => fkInv_updateAccountStage s id st now hs,
    fun s id x hs => fkInv_updateAccountLikelihood s id x hs,
    fun s id note now hs => fkInv_addNoteToAccount s id note now hs,
    fun s id r now hs => fkInv_flagAccountRisk s id r now hs⟩
  exact fkInv_runRuleEngine _ _ _ _ _
    (fkInv_addCallRecord _ _ _ hs hex)

/-- Witness for the amended C10 theorem: recording a call against the
existing `acc-1` account preserves the invariant. -/
theorem callRecord_fk_preservation_witness :
    fkInv (addCallRecord exStore "acc-1" exRecAcc1).1 :=
  callRecord_fk_preservation.2.1 exStore "acc-1" exRecAcc1
    (by unfold fkInv; decide)
    ⟨exAccount, List.mem_cons_self _ _, rfl⟩

end PilotCRM